import Mathlib

/-!
Verification development for the proposal-discovery core of the repository:
per-source extraction of opportunity records, classification/normalization
(categories, opportunity type, funding, relevance score), deduplicating
persistence (`DatabaseManager.save_opportunity`), donor matching
(`DonorDatabase`), and similarity-based ranking
(`EnhancedOpportunityDiscoverer.match_*`).

Python dictionaries with optional keys are modelled as structures with
`Option`-typed fields (missing key = `none`); Python float arithmetic on the
scoring constants is modelled exactly over `ℚ` (respectively `ℝ` where the
TF-IDF similarity needs logarithms and square roots); Python string operations
(`in`, `.lower()`, `.strip()`, slicing) are modelled over `String`/`List Char`.
-/

namespace ProposalAI

/-! ### Basic Python string semantics -/

/-- Python's truthiness of an optional string: `None` and `""` are falsy. -/
def pyTruthy : Option String → Bool
  | none => false
  | some s => !s.isEmpty

/-- Length of an optional string, with a missing value reading as length 0
(the code only takes lengths after a truthiness guard, so the default is
never load-bearing). -/
def optLen : Option String → Nat
  | none => 0
  | some s => s.length

/-- `needle.isPrefixOf (hay.drop i)` for some `i`: the Python substring test
`needle in hay` on character lists. -/
def substrB (needle hay : List Char) : Bool :=
  (List.range (hay.length + 1)).any (fun i => needle.isPrefixOf (hay.drop i))

/-- Python `needle in hay` on strings. -/
def pyContains (hay needle : String) : Bool :=
  substrB needle.toList hay.toList

/-- Python `str.lower()` (ASCII case mapping, which covers every string the
source manipulates). -/
def pyLower (s : String) : String :=
  String.mk (s.toList.map Char.toLower)

/-- Lowercased character list of a string (`text.lower()` viewed as chars). -/
def lowerChars (s : String) : List Char :=
  s.toList.map Char.toLower

/-! ### Stable descending sort

Python's `list.sort(key=..., reverse=True)` is a stable descending sort by
the key.  We model it as insertion sort: an element is inserted before the
first already-placed element whose key is strictly smaller, so elements with
equal keys keep their original relative order. -/

def insertDescBy {α β : Type} [LinearOrder β] (key : α → β) (x : α) : List α → List α
  | [] => [x]
  | y :: ys => if key y ≤ key x then x :: y :: ys else y :: insertDescBy key x ys

def sortDescBy {α β : Type} [LinearOrder β] (key : α → β) : List α → List α
  | [] => []
  | x :: xs => insertDescBy key x (sortDescBy key xs)

theorem insertDescBy_perm {α β : Type} [LinearOrder β] (key : α → β) (x : α) :
    ∀ l : List α, (insertDescBy key x l).Perm (x :: l)
  | [] => List.Perm.refl _
  | y :: ys => by
      by_cases h : key y ≤ key x
      · simp [insertDescBy, h]
      · simp only [insertDescBy, if_neg h]
        exact ((insertDescBy_perm key x ys).cons y).trans (List.Perm.swap x y ys)

theorem sortDescBy_perm {α β : Type} [LinearOrder β] (key : α → β) :
    ∀ l : List α, (sortDescBy key l).Perm l
  | [] => List.Perm.refl _
  | x :: xs =>
      (insertDescBy_perm key x (sortDescBy key xs)).trans
        ((sortDescBy_perm key xs).cons x)

theorem insertDescBy_pairwise {α β : Type} [LinearOrder β] (key : α → β) (x : α) :
    ∀ l : List α, List.Pairwise (fun a b => key b ≤ key a) l →
      List.Pairwise (fun a b => key b ≤ key a) (insertDescBy key x l)
  | [], _ => List.pairwise_singleton _ _
  | y :: ys, h => by
      rcases List.pairwise_cons.mp h with ⟨hy, hys⟩
      by_cases hxy : key y ≤ key x
      · rw [insertDescBy, if_pos hxy]
        refine List.pairwise_cons.mpr ⟨?_, h⟩
        intro a ha
        rcases List.mem_cons.mp ha with rfl | ha
        · exact hxy
        · exact (hy a ha).trans hxy
      · rw [insertDescBy, if_neg hxy]
        refine List.pairwise_cons.mpr ⟨?_, insertDescBy_pairwise key x ys hys⟩
        intro a ha
        have := (insertDescBy_perm key x ys).mem_iff.mp ha
        rcases List.mem_cons.mp this with rfl | ha'
        · exact le_of_not_le hxy
        · exact hy a ha'

theorem sortDescBy_pairwise {α β : Type} [LinearOrder β] (key : α → β) :
    ∀ l : List α, List.Pairwise (fun a b => key b ≤ key a) (sortDescBy key l)
  | [] => List.Pairwise.nil
  | x :: xs => insertDescBy_pairwise key x _ (sortDescBy_pairwise key xs)

theorem sortDescBy_length {α β : Type} [LinearOrder β] (key : α → β) (l : List α) :
    (sortDescBy key l).length = l.length :=
  (sortDescBy_perm key l).length_eq

theorem sortDescBy_mem {α β : Type} [LinearOrder β] (key : α → β) {x : α} {l : List α} :
    x ∈ sortDescBy key l ↔ x ∈ l :=
  (sortDescBy_perm key l).mem_iff

/-! ### The opportunity record

One structure models the Python dict that flows through
`EnhancedOpportunityDiscoverer`: raw extraction fills the first block of
fields, `_classify_opportunity` adds the second block via `dict.update`. -/

structure OppRecord where
  title : Option String := none
  description : Option String := none
  organization : Option String := none
  url : Option String := none
  deadline : Option String := none
  source_url : Option String := none
  keywords : List String := []
  categories : List String := []
  primary_category : Option String := none
  category_scores : List (String × Nat) := []
  estimated_funding : Option String := none
  opportunity_type : Option String := none
  relevance_score : Option ℚ := none
deriving DecidableEq

/-- The category → keyword table of `EnhancedOpportunityDiscoverer.__init__`
(`self.keyword_categories`), in source order. -/
def keyword_categories : List (String × List String) :=
  [("space_technology", ["satellite", "spacecraft", "orbital", "space", "aerospace",
      "astronaut", "mission", "launch", "rocket"]),
   ("ai_ml", ["artificial intelligence", "machine learning", "neural network",
      "deep learning", "computer vision", "nlp", "robotics"]),
   ("energy", ["renewable energy", "solar", "wind", "battery", "energy storage",
      "fuel cell", "nuclear", "clean energy"]),
   ("biotech", ["biotechnology", "genomics", "bioinformatics", "pharmaceutical",
      "medical device", "drug discovery"]),
   ("materials", ["advanced materials", "nanotechnology", "composites",
      "metamaterials", "smart materials"]),
   ("defense", ["defense", "security", "cybersecurity", "surveillance",
      "military", "homeland security"]),
   ("climate", ["climate change", "environmental", "sustainability",
      "carbon capture", "green technology"]),
   ("quantum", ["quantum computing", "quantum communication", "quantum sensing",
      "quantum cryptography"]),
   ("education", ["education", "outreach", "stem", "workforce development",
      "training"]),
   ("healthcare", ["healthcare", "medical", "clinical", "therapy", "diagnostic",
      "patient care"])]

/-! ### `_calculate_relevance_score` (claim C3) -/

/-- `EnhancedOpportunityDiscoverer._calculate_relevance_score`.  Reads the
fields of the record it is handed (`opportunity.get(...)`), sums the
weighted signals and caps the result at 1. -/
def calculate_relevance_score (o : OppRecord) : ℚ :=
  let s1 : ℚ := if pyTruthy o.title then 2/10 else 0
  let s2 : ℚ := if pyTruthy o.description ∧ optLen o.description > 100 then 2/10 else 0
  let s3 : ℚ := if pyTruthy o.deadline then 2/10 else 0
  let s4 : ℚ := if pyTruthy o.url then 1/10 else 0
  let s5 : ℚ := if o.categories ≠ [] then (2/10) * min (o.categories.length : ℚ) 3 else 0
  let s6 : ℚ := if pyTruthy o.estimated_funding then 1/10 else 0
  min (s1 + s2 + s3 + s4 + s5 + s6) 1

/-- The relevance-score formula exactly as the specification words it:
`min(1.0, 0.2·[title] + 0.2·[desc>100] + 0.2·[deadline] + 0.1·[link] +
0.2·min(category_count, 3) + 0.1·[funding])`. -/
def specRelevanceFormula (o : OppRecord) : ℚ :=
  min 1 ((if pyTruthy o.title then (2:ℚ)/10 else 0)
    + (if optLen o.description > 100 then (2:ℚ)/10 else 0)
    + (if pyTruthy o.deadline then (2:ℚ)/10 else 0)
    + (if pyTruthy o.url then (1:ℚ)/10 else 0)
    + (2/10) * min (o.categories.length : ℚ) 3
    + (if pyTruthy o.estimated_funding then (1:ℚ)/10 else 0))

/-! ### `_is_valid_opportunity` (claim C4) -/

/-- `EnhancedOpportunityDiscoverer._is_valid_opportunity`: requires a truthy
title and description, title length in [10, 500], description length ≥ 50,
and `relevance_score` (defaulting to 0 when absent) ≥ 0.3. -/
def is_valid_opportunity (o : OppRecord) : Bool :=
  if ¬ pyTruthy o.title ∨ ¬ pyTruthy o.description then false
  else if optLen o.title < 10 ∨ optLen o.title > 500 then false
  else if optLen o.description < 50 then false
  else if o.relevance_score.getD 0 < 3/10 then false
  else true

/-! ### `_determine_opportunity_type` -/

/-- `EnhancedOpportunityDiscoverer._determine_opportunity_type`, applied by
the classifier to the lowercased title+description text; first matching rule
wins. -/
def determine_opportunity_type (text : String) : String :=
  if ["grant", "funding", "award"].any (fun w => pyContains text w) then "grant"
  else if ["competition", "challenge", "prize"].any (fun w => pyContains text w) then "competition"
  else if ["conference", "paper", "abstract"].any (fun w => pyContains text w) then "conference"
  else if ["collaboration", "partnership"].any (fun w => pyContains text w) then "collaboration"
  else if ["job", "position", "hiring"].any (fun w => pyContains text w) then "employment"
  else "other"

/-! ### `_extract_funding_amount`

The four regular expressions of `_extract_funding_amount` are compiled to
explicit matchers over character lists.  All four are searched with
`re.IGNORECASE`, so matching runs over the lowercased text while the returned
slice is taken from the original text.  Python `\s` on these ASCII inputs is
the six-character whitespace class. -/

def isPyWS (c : Char) : Bool :=
  c = ' ' || c = '\t' || c = '\n' || c = '\r' || c = '\x0b' || c = '\x0c'

/-- Length of the leading run of characters matching `p`. -/
def runLen (p : Char → Bool) (r : List Char) : Nat :=
  (r.takeWhile p).length

/-- Matcher for `\$[\d,]+(?:\.\d{2})?` anchored at the front of `r`; returns
the length of the greedy match. -/
def fundPat1At (r : List Char) : Option Nat :=
  match r with
  | '$' :: r1 =>
      let a := runLen (fun c => c.isDigit || c = ',') r1
      if a = 0 then none
      else
        match r1.drop a with
        | '.' :: r3 =>
            if 2 ≤ r3.length ∧ (r3.take 2).all Char.isDigit then some (1 + a + 3)
            else some (1 + a)
        | _ => some (1 + a)
  | _ => none

/-- First of the currency alternatives `dollars|usd|eur|gbp` (lowercased)
that is a prefix of `r`, with its length. -/
def currencyAt (r : List Char) : Option Nat :=
  (["dollars", "usd", "eur", "gbp"].map String.toList).findSome?
    (fun w => if w.isPrefixOf r then some w.length else none)

/-- Matcher for `[\d,]+\s*(?:million|thousand|billion)?\s*(?:dollars|USD|EUR|GBP)`
anchored at the front of `r` (lowercased input).  The optional scale word is
tried greedily; if no currency word follows it, the regex backtracks to the
empty alternative. -/
def fundPat2At (r : List Char) : Option Nat :=
  let a := runLen (fun c => c.isDigit || c = ',') r
  if a = 0 then none
  else
    let r1 := r.drop a
    let w1 := runLen isPyWS r1
    let r2 := r1.drop w1
    let noScale : Option Nat := (currencyAt r2).map (fun c => a + w1 + c)
    match (["million", "thousand", "billion"].map String.toList).findSome?
        (fun w => if w.isPrefixOf r2 then some w.length else none) with
    | some wl =>
        let r3 := r2.drop wl
        let w2 := runLen isPyWS r3
        match currencyAt (r3.drop w2) with
        | some c => some (a + w1 + wl + w2 + c)
        | none => noScale
    | none => noScale

/-- Matcher for `up to\s*\$[\d,]+` anchored at the front of `r` (lowercased). -/
def fundPat3At (r : List Char) : Option Nat :=
  if ("up to".toList).isPrefixOf r then
    let r1 := r.drop 5
    let w := runLen isPyWS r1
    match r1.drop w with
    | '$' :: r2 =>
        let a := runLen (fun c => c.isDigit || c = ',') r2
        if a = 0 then none else some (5 + w + 1 + a)
    | _ => none
  else none

/-- Matcher for `maximum\s*\$[\d,]+` anchored at the front of `r` (lowercased). -/
def fundPat4At (r : List Char) : Option Nat :=
  if ("maximum".toList).isPrefixOf r then
    let r1 := r.drop 7
    let w := runLen isPyWS r1
    match r1.drop w with
    | '$' :: r2 =>
        let a := runLen (fun c => c.isDigit || c = ',') r2
        if a = 0 then none else some (7 + w + 1 + a)
    | _ => none
  else none

/-- `re.search` with one of the anchored matchers: leftmost match position,
returning the slice (start index, length). -/
def searchAt (patAt : List Char → Option Nat) (s : List Char) : Option (Nat × Nat) :=
  (List.range (s.length + 1)).findSome? (fun i => (patAt (s.drop i)).map (fun n => (i, n)))

/-- `EnhancedOpportunityDiscoverer._extract_funding_amount`: the four
patterns are tried in order, each searched case-insensitively; the first
match wins and the matched slice of the original text is returned. -/
def extract_funding_amount (text : String) : Option String :=
  let orig := text.toList
  let low := orig.map Char.toLower
  ([fundPat1At, fundPat2At, fundPat3At, fundPat4At].findSome?
    (fun patAt => searchAt patAt low)).map
      (fun p => String.mk ((orig.drop p.1).take p.2))

/-! ### `_classify_opportunity` (claim C8) -/

/-- Per-category score of `_classify_opportunity`: the number of the
category's keywords occurring (as case-insensitive substrings) in
title+description. -/
def categoryScoresOf (o : OppRecord) : List (String × Nat) :=
  let textLower := pyLower ((o.title.getD "") ++ " " ++ (o.description.getD ""))
  keyword_categories.map (fun p => (p.1, (p.2.filter (fun k => pyContains textLower k)).length))

/-- The categories with positive score, in table order, stably sorted by
descending score — the value of the local `categories` list of
`_classify_opportunity` just before truncation. -/
def sortedPositiveCategories (o : OppRecord) : List String :=
  let cs := (categoryScoresOf o).filter (fun p => p.2 > 0)
  sortDescBy (fun c => (cs.lookup c).getD 0) (cs.map Prod.fst)

/-- `EnhancedOpportunityDiscoverer._classify_opportunity`.  Note that the
argument of the dict literal passed to `opportunity.update(...)` is fully
evaluated before `update` runs, so `_calculate_relevance_score` sees the
record without the `categories` / `estimated_funding` keys the same call
adds. -/
def classify_opportunity (o : OppRecord) : OppRecord :=
  let text := (o.title.getD "") ++ " " ++ (o.description.getD "")
  let textLower := pyLower text
  let categories := sortedPositiveCategories o
  { o with
    categories := categories.take 5
    primary_category := some (categories.headD "general")
    category_scores := (categoryScoresOf o).filter (fun p => p.2 > 0)
    estimated_funding := extract_funding_amount text
    opportunity_type := some (determine_opportunity_type textLower)
    relevance_score := some (calculate_relevance_score o) }

/-! ### `_extract_deadline_from_text` (claim C9)

The six deadline regexes all have the shape `<phrase>[:\s]*([^.]+)` (with
`closes?` carrying an optional trailing `s`) and are searched over the
lowercased text.  `[:\s]*` is greedy; when the remaining text starts with a
period or ends, the engine backtracks one colon/whitespace character so that
`[^.]+` can still match it.  The three date regexes are then searched inside
the stripped capture. -/

def isColonWS (c : Char) : Bool :=
  c = ':' || isPyWS c

/-- The `[:\s]*([^.]+)` tail of every deadline pattern, anchored at `r`:
returns the captured group, `none` when `[^.]+` cannot match. -/
def captureTail (r : List Char) : Option (List Char) :=
  let k := runLen isColonWS r
  if r.getD k '.' ≠ '.' then some ((r.drop k).takeWhile (fun c => c ≠ '.'))
  else if 0 < k then some ((r.drop (k - 1)).takeWhile (fun c => c ≠ '.'))
  else none

/-- `<phrase>[:\s]*([^.]+)` matched at position `i` of `s`. -/
def phraseCaptureAt (phrase : List Char) (s : List Char) (i : Nat) : Option (List Char) :=
  let rest := s.drop i
  if phrase.isPrefixOf rest then captureTail (rest.drop phrase.length) else none

/-- `closes?[:\s]*([^.]+)` matched at position `i`: the greedy optional `s`
is taken first and given back if the tail cannot match after it. -/
def closesCaptureAt (s : List Char) (i : Nat) : Option (List Char) :=
  let rest := s.drop i
  if ("close".toList).isPrefixOf rest then
    let r0 := rest.drop 5
    if r0.headD ' ' = 's' then
      match captureTail (r0.drop 1) with
      | some c => some c
      | none => captureTail r0
    else captureTail r0
  else none

/-- Leftmost match of a positioned capture function. -/
def searchCapture (capAt : List Char → Nat → Option (List Char)) (s : List Char) :
    Option (List Char) :=
  (List.range (s.length + 1)).findSome? (capAt s)

/-- Python `str.strip()`: drop leading and trailing whitespace. -/
def pyStrip (l : List Char) : List Char :=
  ((l.dropWhile isPyWS).reverse.dropWhile isPyWS).reverse

/-- The numeric date pattern (one or two digits, a slash-or-dash separator,
one or two digits, a separator, two to four digits) anchored at `r`, greedy;
returns the match length. -/
def datePat1At (r : List Char) : Option Nat :=
  let a1 := min 2 (runLen Char.isDigit r)
  if a1 = 0 then none
  else
    match r.drop a1 with
    | c1 :: r1 =>
        if c1 = '/' || c1 = '-' then
          let a2 := min 2 (runLen Char.isDigit r1)
          if a2 = 0 then none
          else
            match r1.drop a2 with
            | c2 :: r2 =>
                if c2 = '/' || c2 = '-' then
                  let a3 := min 4 (runLen Char.isDigit r2)
                  if 2 ≤ a3 then some (a1 + 1 + a2 + 1 + a3) else none
                else none
            | [] => none
        else none
    | [] => none

/-- `\d{4}-\d{2}-\d{2}` anchored at `r`. -/
def datePat2At (r : List Char) : Option Nat :=
  if 10 ≤ r.length ∧ (r.take 4).all Char.isDigit ∧ r.getD 4 ' ' = '-'
      ∧ ((r.drop 5).take 2).all Char.isDigit ∧ r.getD 7 ' ' = '-'
      ∧ ((r.drop 8).take 2).all Char.isDigit then
    some 10
  else none

def monthNames : List String :=
  ["january", "february", "march", "april", "may", "june", "july",
   "august", "september", "october", "november", "december"]

/-- `(january|…|december)\s+\d{1,2},?\s+\d{4}` anchored at `r` (the input is
already lowercase). -/
def datePat3At (r : List Char) : Option Nat :=
  (monthNames.map String.toList).findSome? (fun m =>
    if m.isPrefixOf r then
      let r1 := r.drop m.length
      let w1 := runLen isPyWS r1
      if w1 = 0 then none
      else
        let r2 := r1.drop w1
        let d := min 2 (runLen Char.isDigit r2)
        if d = 0 then none
        else if 2 < runLen Char.isDigit r2 then none
        else
          let r3 := r2.drop d
          let comma := if r3.getD 0 ' ' = ',' then 1 else 0
          let r4 := r3.drop comma
          let w2 := runLen isPyWS r4
          if w2 = 0 then none
          else if 4 ≤ runLen Char.isDigit (r4.drop w2) then
            some (m.length + w1 + d + comma + w2 + 4)
          else none
    else none)

/-- Leftmost match of an anchored date matcher, as the matched slice. -/
def searchDate (patAt : List Char → Option Nat) (s : List Char) : Option (List Char) :=
  (List.range (s.length + 1)).findSome?
    (fun i => (patAt (s.drop i)).map (fun n => (s.drop i).take n))

/-- The six deadline capture patterns, in the source's order. -/
def deadlineCaptures : List (List Char → Nat → Option (List Char)) :=
  [phraseCaptureAt ("deadline".toList), phraseCaptureAt ("due".toList),
   closesCaptureAt, phraseCaptureAt ("submit by".toList),
   phraseCaptureAt ("application deadline".toList),
   phraseCaptureAt ("proposal due".toList)]

def datePatterns : List (List Char → Option Nat) :=
  [datePat1At, datePat2At, datePat3At]

/-- `EnhancedOpportunityDiscoverer._extract_deadline_from_text`: the first
deadline pattern that matches anywhere in the lowercased text wins; inside
its stripped capture the first date pattern with a match is returned,
otherwise the first 100 characters of the capture. -/
def extract_deadline_from_text (text : String) : Option String :=
  let tl := lowerChars text
  deadlineCaptures.findSome? (fun capAt =>
    (searchCapture capAt tl).map (fun captured =>
      let dt := pyStrip captured
      match datePatterns.findSome? (fun patAt => searchDate patAt dt) with
      | some d => String.mk d
      | none => String.mk (dt.take 100)))

/-! ### The discovery pipeline (claim C2)

Fetching and HTML parsing are performed by external collaborators
(`requests`, BeautifulSoup); a configured URL is therefore modelled by its
outcome: either the fetch raises (timeout, connection error, HTTP error —
`requests.get` / `raise_for_status` in `_scrape_website`), or it yields a
list of per-element extraction outcomes, each of which may itself raise
(caught inside `_extract_opportunity_data`) or produce an optional raw
record. -/

inductive FetchOutcome where
  | fetchError (msg : String)
  | fetched (elems : List (Except String (Option OppRecord)))

/-- A row of `self.opportunity_sources`: an organization with its seed URLs
(each given by its outcome; the trigger keywords only steer which HTML
elements are offered for extraction and are folded into the outcomes). -/
structure SourceConfig where
  name : String
  urls : List FetchOutcome

/-- `EnhancedOpportunityDiscoverer._extract_opportunity_data`: its internal
`try/except` turns any per-element parsing error into `None`. -/
def extract_opportunity_data : Except String (Option OppRecord) → Option OppRecord
  | .error _ => none
  | .ok o => o

/-- `EnhancedOpportunityDiscoverer._scrape_website`: a fetch error is caught
by the surrounding `try/except` and the (empty) list collected so far is
returned; otherwise each element is extracted, validated and appended. -/
def scrape_website : FetchOutcome → List OppRecord
  | .fetchError _ => []
  | .fetched elems =>
      elems.foldl (fun acc e =>
        match extract_opportunity_data e with
        | some o => if is_valid_opportunity o then acc ++ [o] else acc
        | none => acc) []

/-- `EnhancedOpportunityDiscoverer.discover_opportunities`: loop over
sources and their URLs (the per-URL `try/except continue` cannot fire beyond
what `_scrape_website` already catches), keep at most `max_per_source`
records per URL, then classify everything collected. -/
def discover_opportunities (sources : List SourceConfig) (maxPerSource : Nat) :
    List OppRecord :=
  (sources.foldl (fun acc src =>
      src.urls.foldl (fun acc2 u => acc2 ++ (scrape_website u).take maxPerSource) acc)
    []).map classify_opportunity

/-- Modelled from the spec's failure-policy wording: the candidates a single
URL contributes — none when its fetch fails, otherwise exactly the
successfully extracted, valid records. -/
def specSurvivingCandidates : FetchOutcome → List OppRecord
  | .fetchError _ => []
  | .fetched elems =>
      (elems.filterMap extract_opportunity_data).filter is_valid_opportunity

/-- Modelled from the spec's wording: discovery returns the classified
candidates produced from every non-failing source/document, failing ones
skipped. -/
def specDiscoveryResult (sources : List SourceConfig) (maxPerSource : Nat) :
    List OppRecord :=
  (sources.flatMap (fun src =>
      src.urls.flatMap (fun u => (specSurvivingCandidates u).take maxPerSource))).map
    classify_opportunity

/-- A URL whose fetch raised. -/
def isFetchError : FetchOutcome → Bool
  | .fetchError _ => true
  | .fetched _ => false

/-! ### `DatabaseManager.save_opportunity` (claims C1, C10)

The `scraped_opportunities` table is modelled as a list of rows in rowid
order together with the next AUTOINCREMENT id; `CURRENT_TIMESTAMP` is an
abstract clock value passed by the caller. -/

/-- The dict handed to `save_opportunity`, with the defaults the code's
`opportunity.get(...)` calls supply. -/
structure SaveInput where
  title : String := ""
  url : String := ""
  description : String := ""
  deadline : String := ""
  category : String := ""
  funding_amount : String := ""
  ai_relevance_score : ℚ := 0
  source : String := ""
deriving DecidableEq

structure StoredOpp where
  id : Nat
  source_url : String
  title : String
  description : String
  deadline : String
  category : String
  estimated_funding : String
  relevance_score : ℚ
  opportunity_type : String
  created_at : Nat
deriving DecidableEq

structure OppStore where
  rows : List StoredOpp
  nextId : Nat
deriving DecidableEq

/-- The `SELECT id FROM scraped_opportunities WHERE title = ? AND
source_url = ?` predicate. -/
def rowMatches (opp : SaveInput) (r : StoredOpp) : Bool :=
  r.title == opp.title && r.source_url == opp.url

/-- The `UPDATE` branch: overwrite the mutable fields, keep id, title,
source URL and creation timestamp. -/
def updatedRow (opp : SaveInput) (r : StoredOpp) : StoredOpp :=
  { r with
    description := opp.description
    deadline := opp.deadline
    category := opp.category
    estimated_funding := opp.funding_amount
    relevance_score := opp.ai_relevance_score
    opportunity_type := opp.source }

/-- The `INSERT` branch: a fresh row with the next rowid and the current
timestamp. -/
def insertedRow (db : OppStore) (opp : SaveInput) (now : Nat) : StoredOpp :=
  { id := db.nextId
    source_url := opp.url
    title := opp.title
    description := opp.description
    deadline := opp.deadline
    category := opp.category
    estimated_funding := opp.funding_amount
    relevance_score := opp.ai_relevance_score
    opportunity_type := opp.source
    created_at := now }

/-- `DatabaseManager.save_opportunity` (happy path): look up the first row
with the same (title, source URL); update it if found, insert otherwise;
return the affected row's id. -/
def save_opportunity (db : OppStore) (opp : SaveInput) (now : Nat) : Nat × OppStore :=
  match db.rows.find? (rowMatches opp) with
  | some existing =>
      (existing.id,
       { db with rows := db.rows.map (fun r => if r.id = existing.id then updatedRow opp r else r) })
  | none =>
      (db.nextId, { rows := db.rows ++ [insertedRow db opp now], nextId := db.nextId + 1 })

/-- The statements inside the `try` block of `save_opportunity` at which
sqlite can raise. -/
inductive SaveStep where
  | selectStep
  | writeStep
  | commitStep
deriving DecidableEq

/-- `DatabaseManager.save_opportunity` with fault injection: any step of the
transaction may raise; the `except` clause rolls the connection back (the
uncommitted working state is discarded, the caller sees the store as it was)
and re-raises the exception. -/
def save_opportunity_with_faults (db : OppStore) (opp : SaveInput) (now : Nat)
    (fault : SaveStep → Option String) : Except String Nat × OppStore :=
  let attempt : Except String (Nat × OppStore) :=
    match fault SaveStep.selectStep with
    | some e => Except.error e
    | none =>
        match fault SaveStep.writeStep with
        | some e => Except.error e
        | none =>
            match fault SaveStep.commitStep with
            | some e => Except.error e
            | none => Except.ok (save_opportunity db opp now)
  match attempt with
  | Except.ok p => (Except.ok p.1, p.2)
  | Except.error e => (Except.error e, db)

/-! ### `DonorDatabase` matching (claim C5) -/

/-- A donor record (the fields `_calculate_match_score` reads, plus the
identifying name). -/
structure Donor where
  name : String := ""
  donor_type : String := ""
  focus_areas : List String := []
  description : String := ""
deriving DecidableEq

/-- The `donor_text` built by `_calculate_match_score`:
`' '.join(focus_areas).lower()` followed by `f" {description.lower()}"`. -/
def donorText (d : Donor) : String :=
  pyLower (String.intercalate " " d.focus_areas) ++ " " ++ pyLower d.description

/-- The `type_keywords` table of `_calculate_match_score`. -/
def type_keywords : List (String × List String) :=
  [("research", ["research", "science", "education", "innovation"]),
   ("space", ["space", "aerospace", "technology", "exploration"]),
   ("education", ["education", "learning", "students", "schools"]),
   ("health", ["health", "medical", "healthcare", "medicine"]),
   ("environment", ["environment", "climate", "sustainability", "conservation"])]

/-- `DonorDatabase._calculate_match_score`. -/
def calculate_match_score (d : Donor) (keywords : List String)
    (opportunity_type : Option String) : ℚ :=
  let text := donorText d
  let keyword_matches := (keywords.filter (fun k => pyContains text (pyLower k))).length
  let base : ℚ :=
    if keywords ≠ [] then ((keyword_matches : ℚ) / (keywords.length : ℚ)) * (6/10) else 0
  let bonus : ℚ :=
    match opportunity_type with
    | none => 0
    | some t =>
        if t.isEmpty then 0
        else
          match type_keywords.lookup (pyLower t) with
          | some ws => ((ws.filter (fun w => pyContains text w)).length : ℚ) * (1/10)
          | none => 0
  min (base + bonus) 1

/-- `DonorDatabase.find_matching_donors` over a given registry: keep donors
scoring strictly above 0.3, sort by descending score (stable), return the
top 10. -/
def find_matching_donors (donors : List Donor) (opportunity_keywords : List String)
    (opportunity_type : Option String) : List (Donor × ℚ) :=
  (sortDescBy (fun p => p.2)
    (donors.filterMap (fun d =>
      let score := calculate_match_score d opportunity_keywords opportunity_type
      if score > 3/10 then some (d, score) else none))).take 10

/-- The donor-score formula exactly as the specification words it (defined
for a non-empty keyword list). -/
def specDonorScoreFormula (d : Donor) (keywords : List String)
    (opportunity_type : Option String) : ℚ :=
  let text := donorText d
  let matched := (keywords.filter (fun k => pyContains text (pyLower k))).length
  let typeCount : ℚ :=
    match opportunity_type with
    | none => 0
    | some t =>
        if t.isEmpty then 0
        else
          match type_keywords.lookup (pyLower t) with
          | some ws => ((ws.filter (fun w => pyContains text w)).length : ℚ)
          | none => 0
  min 1 ((6/10) * ((matched : ℚ) / (keywords.length : ℚ)) + (1/10) * typeCount)

/-! ### TF-IDF similarity (claims C6, C7)

`self.vectorizer = TfidfVectorizer(max_features=1000, stop_words='english')`
with scikit-learn's defaults: lowercase, tokens are maximal runs of two or
more word characters, English stop words removed, smoothed idf
`ln((1+n)/(1+df)) + 1`, and l2-normalised rows; `cosine_similarity`
normalises again (zero rows are left untouched, i.e. a zero norm is treated
as 1), so the similarity is the dot product of the safely-normalised
vectors. -/

def isWordChar (c : Char) : Bool :=
  c.isAlphanum || c = '_'

/-- Maximal runs of word characters, accumulating the current run in
reverse (structural recursion so that concrete corpora reduce inside the
kernel). -/
def wordRunsAux : List Char → List Char → List (List Char)
  | [], acc => if acc.isEmpty then [] else [acc.reverse]
  | c :: cs, acc =>
      if isWordChar c then wordRunsAux cs (c :: acc)
      else if acc.isEmpty then wordRunsAux cs [] else acc.reverse :: wordRunsAux cs []

/-- Maximal runs of word characters (the `\w\w+`-token splitter before the
length filter). -/
def wordRuns (l : List Char) : List (List Char) :=
  wordRunsAux l []

/-- scikit-learn's built-in `'english'` stop-word list. -/
def sklearn_stop_words : List String :=
  ["a", "about", "above", "across", "after", "afterwards", "again", "against",
   "all", "almost", "alone", "along", "already", "also", "although", "always",
   "am", "among", "amongst", "amoungst", "amount", "an", "and", "another",
   "any", "anyhow", "anyone", "anything", "anyway", "anywhere", "are",
   "around", "as", "at", "back", "be", "became", "because", "become",
   "becomes", "becoming", "been", "before", "beforehand", "behind", "being",
   "below", "beside", "besides", "between", "beyond", "bill", "both",
   "bottom", "but", "by", "call", "can", "cannot", "cant", "co", "con",
   "could", "couldnt", "cry", "de", "describe", "detail", "do", "done",
   "down", "due", "during", "each", "eg", "eight", "either", "eleven",
   "else", "elsewhere", "empty", "enough", "etc", "even", "ever", "every",
   "everyone", "everything", "everywhere", "except", "few", "fifteen",
   "fifty", "fill", "find", "fire", "first", "five", "for", "former",
   "formerly", "forty", "found", "four", "from", "front", "full", "further",
   "get", "give", "go", "had", "has", "hasnt", "have", "he", "hence", "her",
   "here", "hereafter", "hereby", "herein", "hereupon", "hers", "herself",
   "him", "himself", "his", "how", "however", "hundred", "i", "ie", "if",
   "in", "inc", "indeed", "interest", "into", "is", "it", "its", "itself",
   "keep", "last", "latter", "latterly", "least", "less", "ltd", "made",
   "many", "may", "me", "meanwhile", "might", "mill", "mine", "more",
   "moreover", "most", "mostly", "move", "much", "must", "my", "myself",
   "name", "namely", "neither", "never", "nevertheless", "next", "nine",
   "no", "nobody", "none", "noone", "nor", "not", "nothing", "now",
   "nowhere", "of", "off", "often", "on", "once", "one", "only", "onto",
   "or", "other", "others", "otherwise", "our", "ours", "ourselves", "out",
   "over", "own", "part", "per", "perhaps", "please", "put", "rather", "re",
   "same", "see", "seem", "seemed", "seeming", "seems", "serious", "several",
   "she", "should", "show", "side", "since", "sincere", "six", "sixty",
   "so", "some", "somehow", "someone", "something", "sometime", "sometimes",
   "somewhere", "still", "such", "system", "take", "ten", "than", "that",
   "the", "their", "them", "themselves", "then", "thence", "there",
   "thereafter", "thereby", "therefore", "therein", "thereupon", "these",
   "they", "thick", "thin", "third", "this", "those", "though", "three",
   "through", "throughout", "thru", "thus", "to", "together", "too", "top",
   "toward", "towards", "twelve", "twenty", "two", "un", "under", "until",
   "up", "upon", "us", "very", "via", "was", "we", "well", "were", "what",
   "whatever", "when", "whence", "whenever", "where", "whereafter",
   "whereas", "whereby", "wherein", "whereupon", "wherever", "whether",
   "which", "while", "whither", "who", "whoever", "whole", "whom", "whose",
   "why", "will", "with", "within", "without", "would", "yet", "you",
   "your", "yours", "yourself", "yourselves"]

/-- The vectorizer's analyzer: lowercase, extract tokens of at least two
word characters, drop stop words. -/
def tokenize (s : String) : List String :=
  (((wordRuns (lowerChars s)).filter (fun r => 2 ≤ r.length)).map
    (fun r => String.mk r)).filter (fun t => ¬ sklearn_stop_words.contains t)

/-- The distinct terms of a tokenized corpus. -/
def rawVocab (docs : List (List String)) : List String :=
  docs.flatten.dedup

/-- `max_features=1000`: when more than 1000 distinct terms exist, keep the
1000 most frequent (ties resolved alphabetically, as scikit-learn sorts by
descending count then ascending term). -/
def vocabulary (docs : List (List String)) : List String :=
  let vs := rawVocab docs
  if vs.length ≤ 1000 then vs
  else
    (sortDescBy
      (fun t => toLex ((docs.flatten.count t, OrderDual.toDual t) : Nat × Stringᵒᵈ))
      vs).take 1000

/-- Smoothed inverse document frequency
`ln((1 + n) / (1 + df(t))) + 1` (`smooth_idf=True` default). -/
noncomputable def idf (docs : List (List String)) (t : String) : ℝ :=
  Real.log ((1 + (docs.length : ℝ)) / (1 + ((docs.filter (fun d => d.contains t)).length : ℝ))) + 1

/-- Raw tf·idf weight of term `t` in document `d` for a corpus fit. -/
noncomputable def tfidfWeight (docs : List (List String)) (d : List String) (t : String) : ℝ :=
  (d.count t : ℝ) * idf docs t

noncomputable def dotProd (docs : List (List String)) (d1 d2 : List String) : ℝ :=
  ((vocabulary docs).map (fun t => tfidfWeight docs d1 t * tfidfWeight docs d2 t)).sum

noncomputable def normV (docs : List (List String)) (d : List String) : ℝ :=
  Real.sqrt (((vocabulary docs).map (fun t => (tfidfWeight docs d t) ^ 2)).sum)

/-- Cosine similarity of two documents of the fitted corpus, with
scikit-learn's zero-norm guard (a zero vector stays zero, its norm is
replaced by 1). -/
noncomputable def cosineSim (docs : List (List String)) (d1 d2 : List String) : ℝ :=
  dotProd docs d1 d2 /
    ((if normV docs d1 = 0 then 1 else normV docs d1) *
     (if normV docs d2 = 0 then 1 else normV docs d2))

/-! ### `match_opportunities_to_profile` and
`match_proposal_to_opportunities` -/

/-- A value of one of the profile-dict fields: a plain string or a list
(`_create_profile_text` extends with lists and appends strings). -/
inductive ProfileVal where
  | str (s : String)
  | items (l : List String)

/-- The profile dict; a `none` field is an absent key. -/
structure ProfileData where
  skills : Option ProfileVal := none
  experience : Option ProfileVal := none
  education : Option ProfileVal := none
  research_interests : Option ProfileVal := none
  expertise : Option ProfileVal := none
  background : Option ProfileVal := none
  keywords : Option ProfileVal := none
  specialization : Option ProfileVal := none
  industry : Option ProfileVal := none
  technologies : Option ProfileVal := none
  publications : Option ProfileVal := none

/-- Contribution of one profile field to the profile text (falsy values —
absent keys, empty strings, empty lists — are skipped). -/
def profileParts : Option ProfileVal → List String
  | none => []
  | some (ProfileVal.str s) => if s.isEmpty then [] else [s]
  | some (ProfileVal.items l) => if l.isEmpty then [] else l

/-- `EnhancedOpportunityDiscoverer._create_profile_text`: join the truthy
fields, in the source's `fields_to_include` order, with spaces. -/
def create_profile_text (p : ProfileData) : String :=
  String.intercalate " "
    (([p.skills, p.experience, p.education, p.research_interests, p.expertise,
       p.background, p.keywords, p.specialization, p.industry, p.technologies,
       p.publications]).flatMap profileParts)

/-- The opportunity document of the profile matcher:
title, description and joined keywords. -/
def oppText (o : OppRecord) : String :=
  (o.title.getD "") ++ " " ++ (o.description.getD "") ++ " "
    ++ String.intercalate " " o.keywords

/-- The opportunity document of the proposal matcher: title and description
only. -/
def oppTextTD (o : OppRecord) : String :=
  (o.title.getD "") ++ " " ++ (o.description.getD "")

/-- The `ValueError` message `CountVectorizer.fit` raises when no document
of the fitted corpus yields a token (every text empty, shorter than two word
characters per token, or all stop words). -/
def emptyVocabularyError : String :=
  "empty vocabulary; perhaps the documents only contain stop words"

/-- `EnhancedOpportunityDiscoverer.match_opportunities_to_profile`: guard on
an empty corpus, fit TF-IDF on the profile text plus all opportunity texts —
`fit_transform` raises scikit-learn's empty-vocabulary `ValueError` when the
whole corpus is token-free, and the function has no `try/except`, so the
error propagates — otherwise attach `combined_score = similarity*0.7 +
relevance*0.3`, sort descending (stable) and keep the top `top_n`.  Each
result pair carries the record and its combined score. -/
noncomputable def match_opportunities_to_profile (p : ProfileData)
    (opportunities : List OppRecord) (top_n : Nat) :
    Except String (List (OppRecord × ℝ)) :=
  if opportunities.isEmpty then Except.ok []
  else
    let profile_text := create_profile_text p
    let docs := (profile_text :: opportunities.map oppText).map tokenize
    if docs.flatten.isEmpty then Except.error emptyVocabularyError
    else
      let scored := opportunities.map (fun o =>
        (o, cosineSim docs (tokenize profile_text) (tokenize (oppText o)) * 0.7
              + ((o.relevance_score.getD 0 : ℚ) : ℝ) * 0.3))
      Except.ok ((sortDescBy (fun q => q.2) scored).take top_n)

/-- `EnhancedOpportunityDiscoverer._classify_text_categories`. -/
def classify_text_categories (text : String) : List String :=
  (keyword_categories.filter
    (fun p => p.2.any (fun k => pyContains (pyLower text) k))).map Prod.fst

/-- `EnhancedOpportunityDiscoverer._extract_keywords_from_text`.  The
entity/noun-chunk keywords come from the external spaCy `en_core_web_sm`
model, abstracted as `nlpKw`; Python's `list(set(...))` enumerates in an
interpreter-defined order, modelled as an order-preserving dedup. -/
def extract_keywords_from_text (nlpKw : String → List String) (text : String) :
    List String :=
  ((nlpKw text ++ keyword_categories.flatMap (fun p =>
      (p.2.filter (fun k => pyContains (pyLower text) k)).map
        (fun k => p.1 ++ ":" ++ k))).dedup).take 20

/-- `EnhancedOpportunityDiscoverer.match_proposal_to_opportunities`: guard
on an empty corpus; keyword/category overlaps are set intersections; the
text similarity refits TF-IDF on the pair (proposal text, title+description)
for every opportunity — when the proposal text and some opportunity's text
are both token-free, that per-pair `fit_transform` raises the
empty-vocabulary `ValueError`, which propagates (no `try/except`) and
discards everything computed so far; otherwise `match_score =
similarity*0.5 + keyword_overlap/max(|pk|,1)*0.3 +
category_overlap/max(|pc|,1)*0.2`. -/
noncomputable def match_proposal_to_opportunities (nlpKw : String → List String)
    (proposal_text : String) (opportunities : List OppRecord) (top_n : Nat) :
    Except String (List (OppRecord × ℝ)) :=
  if opportunities.isEmpty then Except.ok []
  else
    let proposal_keywords := extract_keywords_from_text nlpKw proposal_text
    let proposal_categories := classify_text_categories proposal_text
    if opportunities.any (fun o =>
        ([tokenize proposal_text, tokenize (oppTextTD o)].flatten).isEmpty) then
      Except.error emptyVocabularyError
    else
      let scored := opportunities.map (fun o =>
        let keyword_overlap :=
          (proposal_keywords.dedup.filter (fun k => o.keywords.contains k)).length
        let category_overlap :=
          (proposal_categories.dedup.filter (fun c => o.categories.contains c)).length
        let pairDocs := [tokenize proposal_text, tokenize (oppTextTD o)]
        (o, cosineSim pairDocs (tokenize proposal_text) (tokenize (oppTextTD o)) * 0.5
              + ((keyword_overlap : ℝ) / (max proposal_keywords.length 1 : Nat)) * 0.3
              + ((category_overlap : ℝ) / (max proposal_categories.length 1 : Nat)) * 0.2))
      Except.ok ((sortDescBy (fun q => q.2) scored).take top_n)

/-! ## Theorems -/

theorem pyTruthy_of_pos {a : Option String} (h : 0 < optLen a) : pyTruthy a = true := by
  match a with
  | none => simp [optLen] at h
  | some s =>
      simp only [pyTruthy, Bool.not_eq_eq_eq_not, Bool.not_true]
      rw [Bool.eq_false_iff]
      intro hc
      have := (String.isEmpty_iff s).mp hc
      subst this
      simp [optLen] at h

/-- Claim C3: `_calculate_relevance_score` computes exactly
`min(1.0, 0.2·[title present] + 0.2·[description length > 100] +
0.2·[deadline present] + 0.1·[link present] + 0.2·min(category_count, 3) +
0.1·[funding extracted])`, and consequently the score of every candidate
lies in [0, 1]. -/
theorem relevance_score_formula_and_bounds (o : OppRecord) :
    calculate_relevance_score o = specRelevanceFormula o
      ∧ 0 ≤ calculate_relevance_score o ∧ calculate_relevance_score o ≤ 1 := by
  have hdesc : (if pyTruthy o.description ∧ optLen o.description > 100 then (2:ℚ)/10 else 0)
      = (if optLen o.description > 100 then (2:ℚ)/10 else 0) := by
    by_cases h : optLen o.description > 100
    · rw [if_pos h, if_pos ⟨by simpa using pyTruthy_of_pos (lt_trans (by norm_num) h), h⟩]
    · rw [if_neg h, if_neg (fun hc => h hc.2)]
  have hcat : (if o.categories ≠ [] then (2:ℚ)/10 * min (o.categories.length : ℚ) 3 else 0)
      = (2:ℚ)/10 * min (o.categories.length : ℚ) 3 := by
    by_cases h : o.categories = []
    · simp [h]
    · rw [if_pos h]
  have hterms : ∀ c : Prop, ∀ _ : Decidable c, ∀ q : ℚ, 0 ≤ q →
      0 ≤ (if c then q else 0) := by
    intro c _ q hq
    split_ifs <;> simp [hq]
  have hmin : (0:ℚ) ≤ (2:ℚ)/10 * min (o.categories.length : ℚ) 3 := by
    apply mul_nonneg (by norm_num)
    exact le_min (by positivity) (by norm_num)
  refine ⟨?_, ?_, ?_⟩
  · unfold calculate_relevance_score specRelevanceFormula
    rw [min_comm, hdesc, hcat]
  · unfold calculate_relevance_score
    refine le_min ?_ (by norm_num)
    have h1 := hterms (pyTruthy o.title = true) inferInstance ((2:ℚ)/10) (by norm_num)
    have h2 := hterms (pyTruthy o.description = true ∧ optLen o.description > 100)
      inferInstance ((2:ℚ)/10) (by norm_num)
    have h3 := hterms (pyTruthy o.deadline = true) inferInstance ((2:ℚ)/10) (by norm_num)
    have h4 := hterms (pyTruthy o.url = true) inferInstance ((1:ℚ)/10) (by norm_num)
    have h6 := hterms (pyTruthy o.estimated_funding = true) inferInstance ((1:ℚ)/10) (by norm_num)
    have h5 : (0:ℚ) ≤ (if o.categories ≠ [] then (2:ℚ)/10 * min (o.categories.length : ℚ) 3 else 0) := by
      split_ifs <;> simp [hmin]
    positivity
  · unfold calculate_relevance_score
    exact min_le_right _ _

/-- A title and description passing the length gates, a relevance value, and
description lengths 49 and 50: the two boundary candidates of claim C4. -/
def boundaryCandidate (descr : String) : OppRecord :=
  { title := some "Research Grant Opportunity 2031"
    description := some descr
    relevance_score := some (1/2) }

def desc49 : String := "0123456789012345678901234567890123456789012345678"

def desc50 : String := "01234567890123456789012345678901234567890123456789"

/-- Claim C4: a candidate passes `_is_valid_opportunity` iff its title
length is in [10, 500], its description length is at least 50, and its
relevance score (0 when absent) is at least 0.3; in particular, all else
fixed at passing values, description length 49 is rejected and length 50 is
accepted.  Rejection is a `false` result, not an error: the scraper merely
skips the candidate. -/
theorem validity_filter_characterisation :
    (∀ o : OppRecord, is_valid_opportunity o = true ↔
      (10 ≤ optLen o.title ∧ optLen o.title ≤ 500 ∧ 50 ≤ optLen o.description
        ∧ 3/10 ≤ o.relevance_score.getD 0))
    ∧ is_valid_opportunity (boundaryCandidate desc49) = false
    ∧ is_valid_opportunity (boundaryCandidate desc50) = true := by
  have hiff : ∀ o : OppRecord, is_valid_opportunity o = true ↔
      (10 ≤ optLen o.title ∧ optLen o.title ≤ 500 ∧ 50 ≤ optLen o.description
        ∧ 3/10 ≤ o.relevance_score.getD 0) := by
    intro o
    unfold is_valid_opportunity
    constructor
    · intro h
      split_ifs at h with h1 h2 h3 h4
      push_neg at h2
      exact ⟨h2.1, h2.2, not_lt.mp h3, not_lt.mp h4⟩
    · intro ⟨ht1, ht2, hd, hr⟩
      have g1 : ¬(¬ pyTruthy o.title = true ∨ ¬ pyTruthy o.description = true) := by
        push_neg
        exact ⟨pyTruthy_of_pos (lt_of_lt_of_le (by norm_num) ht1),
               pyTruthy_of_pos (lt_of_lt_of_le (by norm_num) hd)⟩
      have g2 : ¬(optLen o.title < 10 ∨ optLen o.title > 500) := by omega
      have g3 : ¬(optLen o.description < 50) := by omega
      have g4 : ¬(o.relevance_score.getD 0 < 3/10) := not_lt.mpr hr
      rw [if_neg g1, if_neg g2, if_neg g3, if_neg g4]
  refine ⟨hiff, ?_, ?_⟩
  · rw [Bool.eq_false_iff]
    intro hc
    have h49 : desc49.length = 49 := rfl
    have := ((hiff _).mp hc).2.2.1
    simp only [boundaryCandidate, optLen] at this
    omega
  · rw [(hiff _)]
    have h50 : desc50.length = 50 := rfl
    have ht : ("Research Grant Opportunity 2031" : String).length = 31 := rfl
    refine ⟨?_, ?_, ?_, ?_⟩
    · simp only [boundaryCandidate, optLen]
      omega
    · simp only [boundaryCandidate, optLen]
      omega
    · simp only [boundaryCandidate, optLen]
      omega
    · simp only [boundaryCandidate, Option.getD_some]
      norm_num

theorem rowMatches_updatedRow (opp upd : SaveInput) (r : StoredOpp) :
    rowMatches opp (updatedRow upd r) = rowMatches opp r := by
  simp [rowMatches, updatedRow]

/-- Claim C1: calling `save_opportunity` twice with the same (title, source
URL) but different descriptions, starting from a store with no row for that
key, leaves exactly one row for the key; it carries the latest description
while keeping the id and creation timestamp of the first call, and the
second call returns the same id as the first. -/
theorem upsert_idempotent (db : OppStore) (o1 o2 : SaveInput) (n1 n2 : Nat)
    (ht : o1.title = o2.title) (hu : o1.url = o2.url)
    (hd : o1.description ≠ o2.description)
    (h0 : db.rows.countP (rowMatches o1) = 0) :
    ((save_opportunity (save_opportunity db o1 n1).2 o2 n2).2.rows.countP (rowMatches o2) = 1)
    ∧ (∃ row,
        (save_opportunity (save_opportunity db o1 n1).2 o2 n2).2.rows.find? (rowMatches o2)
            = some row
        ∧ row.description = o2.description
        ∧ row.id = (save_opportunity db o1 n1).1
        ∧ row.created_at = n1)
    ∧ (save_opportunity (save_opportunity db o1 n1).2 o2 n2).1
        = (save_opportunity db o1 n1).1 := by
  have hmatch : rowMatches o2 = rowMatches o1 := by
    funext r
    simp [rowMatches, ht, hu]
  have hnone : db.rows.find? (rowMatches o1) = none :=
    List.find?_eq_none.mpr (fun x hx => by
      simpa using List.countP_eq_zero.mp h0 x hx)
  have hfirst : save_opportunity db o1 n1
      = (db.nextId, { rows := db.rows ++ [insertedRow db o1 n1], nextId := db.nextId + 1 }) := by
    simp [save_opportunity, hnone]
  set new := insertedRow db o1 n1 with hnew
  have hnew_match : rowMatches o2 new = true := by
    simp [rowMatches, hnew, insertedRow, ← ht, ← hu]
  have hfind2 : (db.rows ++ [new]).find? (rowMatches o2) = some new := by
    rw [List.find?_append]
    have : db.rows.find? (rowMatches o2) = none := by rw [hmatch]; exact hnone
    rw [this, Option.none_or]
    simp [List.find?, hnew_match]
  have hsecond : save_opportunity (save_opportunity db o1 n1).2 o2 n2
      = (new.id,
         { rows := (db.rows ++ [new]).map
             (fun r => if r.id = new.id then updatedRow o2 r else r)
           nextId := db.nextId + 1 }) := by
    rw [hfirst]
    simp [save_opportunity, hfind2]
  have hpres : ∀ r : StoredOpp,
      rowMatches o2 (if r.id = new.id then updatedRow o2 r else r) = rowMatches o2 r := by
    intro r
    split_ifs with h
    · exact rowMatches_updatedRow o2 o2 r
    · rfl
  refine ⟨?_, ?_, ?_⟩
  · rw [hsecond]
    have : ((db.rows ++ [new]).map
        (fun r => if r.id = new.id then updatedRow o2 r else r)).countP (rowMatches o2)
        = (db.rows ++ [new]).countP (rowMatches o2) := by
      rw [List.countP_map]
      exact List.countP_congr (fun x _ => by simpa using (hpres x))
    rw [this, List.countP_append, hmatch, h0]
    have h1 : rowMatches o1 new = true := by
      rw [← hmatch]
      exact hnew_match
    simp [List.countP, List.countP.go, h1]
  · refine ⟨updatedRow o2 new, ?_, by simp [updatedRow], ?_, ?_⟩
    · rw [hsecond]
      simp only [List.map_append, List.map_cons, List.map_nil, if_pos rfl]
      rw [List.find?_append]
      have hl : (db.rows.map
          (fun r => if r.id = new.id then updatedRow o2 r else r)).find? (rowMatches o2)
          = none := by
        apply List.find?_eq_none.mpr
        intro x hx
        rcases List.mem_map.mp hx with ⟨r, hr, rfl⟩
        have := List.countP_eq_zero.mp h0 r hr
        rw [hpres r, hmatch]
        simpa using this
      rw [hl, Option.none_or]
      simp [List.find?, rowMatches_updatedRow, hnew_match]
    · rw [hfirst]
      simp [updatedRow, hnew, insertedRow]
    · simp [updatedRow, hnew, insertedRow]
  · rw [hsecond, hfirst]
    simp [hnew, insertedRow]

def c1Store : OppStore := { rows := [], nextId := 1 }

def c1First : SaveInput :=
  { title := "Lunar Lander Challenge Proposal Call"
    url := "https://example.org/calls/lander"
    description := "first description of the call" }

def c1Second : SaveInput :=
  { title := "Lunar Lander Challenge Proposal Call"
    url := "https://example.org/calls/lander"
    description := "updated description of the call" }

/-- Witness for claim C1 at a concrete store and pair of records. -/
theorem upsert_idempotent_witness :
    (c1First.title = c1Second.title ∧ c1First.url = c1Second.url
      ∧ c1First.description ≠ c1Second.description
      ∧ c1Store.rows.countP (rowMatches c1First) = 0)
    ∧ (((save_opportunity (save_opportunity c1Store c1First 5).2 c1Second 9).2.rows.countP
          (rowMatches c1Second) = 1)
        ∧ (∃ row,
            (save_opportunity (save_opportunity c1Store c1First 5).2 c1Second 9).2.rows.find?
                (rowMatches c1Second) = some row
            ∧ row.description = c1Second.description
            ∧ row.id = (save_opportunity c1Store c1First 5).1
            ∧ row.created_at = 5)
        ∧ (save_opportunity (save_opportunity c1Store c1First 5).2 c1Second 9).1
            = (save_opportunity c1Store c1First 5).1) :=
  ⟨⟨rfl, rfl, by decide, rfl⟩,
   upsert_idempotent c1Store c1First c1Second 5 9 rfl rfl (by decide) rfl⟩

/-- Claim C10 (implicit): when any step of `save_opportunity` raises, the
transaction is rolled back — the caller observes the store exactly as it was
— and the exception itself is re-raised rather than swallowed; with no
fault, the function behaves as the happy-path upsert. -/
theorem save_rollback_on_failure :
    (∀ (db : OppStore) (opp : SaveInput) (now : Nat) (fault : SaveStep → Option String)
        (e : String),
      (save_opportunity_with_faults db opp now fault).1 = Except.error e →
        (save_opportunity_with_faults db opp now fault).2 = db
        ∧ ∃ step, fault step = some e)
    ∧ (∀ (db : OppStore) (opp : SaveInput) (now : Nat),
        save_opportunity_with_faults db opp now (fun _ => none)
          = (Except.ok (save_opportunity db opp now).1, (save_opportunity db opp now).2)) := by
  constructor
  · intro db opp now fault e h
    cases hs : fault SaveStep.selectStep with
    | some e1 =>
        simp only [save_opportunity_with_faults, hs, Except.error.injEq] at h ⊢
        subst h
        exact ⟨trivial, SaveStep.selectStep, hs⟩
    | none =>
        cases hw : fault SaveStep.writeStep with
        | some e2 =>
            simp only [save_opportunity_with_faults, hs, hw, Except.error.injEq] at h ⊢
            subst h
            exact ⟨trivial, SaveStep.writeStep, hw⟩
        | none =>
            cases hc : fault SaveStep.commitStep with
            | some e3 =>
                simp only [save_opportunity_with_faults, hs, hw, hc, Except.error.injEq] at h ⊢
                subst h
                exact ⟨trivial, SaveStep.commitStep, hc⟩
            | none =>
                simp only [save_opportunity_with_faults, hs, hw, hc] at h
                exact Except.noConfusion h
  · intro db opp now
    rfl

def c10Fault : SaveStep → Option String := fun s =>
  match s with
  | SaveStep.writeStep => some "database is locked"
  | _ => none

/-- Witness for claim C10: a fault at the write step on a concrete store. -/
theorem save_rollback_on_failure_witness :
    ((save_opportunity_with_faults c1Store c1First 5 c10Fault).1
        = Except.error "database is locked")
    ∧ ((save_opportunity_with_faults c1Store c1First 5 c10Fault).2 = c1Store
        ∧ ∃ step, c10Fault step = some "database is locked") :=
  ⟨rfl, save_rollback_on_failure.1 c1Store c1First 5 c10Fault "database is locked" rfl⟩

theorem foldl_append_eq_flatMap {α β : Type} (f : α → List β) :
    ∀ (l : List α) (acc : List β),
      l.foldl (fun a x => a ++ f x) acc = acc ++ l.flatMap f
  | [], acc => by simp
  | x :: xs, acc => by
      rw [List.foldl_cons, foldl_append_eq_flatMap f xs (acc ++ f x)]
      simp

theorem scrape_website_eq_spec (u : FetchOutcome) :
    scrape_website u = specSurvivingCandidates u := by
  cases u with
  | fetchError msg => rfl
  | fetched elems =>
      show elems.foldl _ [] = _
      have main : ∀ (es : List (Except String (Option OppRecord))) (acc : List OppRecord),
          es.foldl (fun acc e =>
            match extract_opportunity_data e with
            | some o => if is_valid_opportunity o then acc ++ [o] else acc
            | none => acc) acc
          = acc ++ (es.filterMap extract_opportunity_data).filter is_valid_opportunity := by
        intro es
        induction es with
        | nil => intro acc; simp
        | cons e es ih =>
            intro acc
            rw [List.foldl_cons]
            cases hx : extract_opportunity_data e with
            | none => simp [hx, ih acc]
            | some o =>
                by_cases hv : is_valid_opportunity o
                · simp [hx, hv, ih (acc ++ [o])]
                · simp [hx, hv, ih acc]
      simpa using main elems []

/-- Claim C2: discovery never propagates a fetch or extraction error — it
returns exactly the classified candidates produced from the non-failing
sources and documents, and a source whose every URL fails contributes
nothing while leaving the other sources' candidates intact. -/
theorem discovery_failure_containment :
    (∀ (sources : List SourceConfig) (maxPerSource : Nat),
      discover_opportunities sources maxPerSource = specDiscoveryResult sources maxPerSource)
    ∧ (∀ (pre post : List SourceConfig) (src : SourceConfig) (maxPerSource : Nat),
        (∀ u ∈ src.urls, isFetchError u = true) →
          discover_opportunities (pre ++ src :: post) maxPerSource
            = discover_opportunities (pre ++ post) maxPerSource) := by
  have hmain : ∀ (sources : List SourceConfig) (maxPerSource : Nat),
      discover_opportunities sources maxPerSource = specDiscoveryResult sources maxPerSource := by
    intro sources maxPerSource
    unfold discover_opportunities specDiscoveryResult
    congr 1
    have hinner : ∀ src : SourceConfig, ∀ acc : List OppRecord,
        src.urls.foldl (fun acc2 u => acc2 ++ (scrape_website u).take maxPerSource) acc
        = acc ++ src.urls.flatMap (fun u => (specSurvivingCandidates u).take maxPerSource) := by
      intro src acc
      rw [foldl_append_eq_flatMap (fun u => (scrape_website u).take maxPerSource) src.urls acc]
      congr 1
      exact List.flatMap_congr (fun u _ => by rw [scrape_website_eq_spec])
    calc sources.foldl (fun acc src =>
          src.urls.foldl (fun acc2 u => acc2 ++ (scrape_website u).take maxPerSource) acc) []
        = sources.foldl (fun acc src =>
            acc ++ src.urls.flatMap (fun u => (specSurvivingCandidates u).take maxPerSource)) [] := by
          apply List.foldl_ext
          intro acc src _
          exact hinner src acc
      _ = sources.flatMap (fun src =>
            src.urls.flatMap (fun u => (specSurvivingCandidates u).take maxPerSource)) := by
          rw [foldl_append_eq_flatMap]
          simp
  refine ⟨hmain, ?_⟩
  intro pre post src maxPerSource hfail
  rw [hmain, hmain]
  unfold specDiscoveryResult
  congr 1
  rw [List.flatMap_append, List.flatMap_append, List.flatMap_cons]
  have hgen : ∀ urls : List FetchOutcome, (∀ u ∈ urls, isFetchError u = true) →
      urls.flatMap (fun u => (specSurvivingCandidates u).take maxPerSource) = [] := by
    intro urls
    induction urls with
    | nil => intro _; rfl
    | cons u us ih =>
        intro hall
        rw [List.flatMap_cons]
        have hu := hall u (List.mem_cons_self u us)
        cases u with
        | fetchError msg =>
            rw [ih (fun v hv => hall v (List.mem_cons_of_mem _ hv))]
            simp [specSurvivingCandidates]
        | fetched elems => simp [isFetchError] at hu
  rw [hgen src.urls hfail]
  simp

def c2FailingSource : SourceConfig :=
  { name := "NASA"
    urls := [FetchOutcome.fetchError "connection timeout",
             FetchOutcome.fetchError "HTTP 503"] }

def c2HealthySource : SourceConfig :=
  { name := "ESA"
    urls := [FetchOutcome.fetched
      [Except.ok (some (boundaryCandidate desc50)),
       Except.error "malformed element"]] }

/-- Witness for claim C2: a source whose two URLs both fail is skipped and
the healthy source's candidates survive unchanged. -/
theorem discovery_failure_containment_witness :
    (∀ u ∈ c2FailingSource.urls, isFetchError u = true)
    ∧ discover_opportunities ([] ++ c2FailingSource :: [c2HealthySource]) 20
        = discover_opportunities ([] ++ [c2HealthySource]) 20 :=
  ⟨by decide, discovery_failure_containment.2 [] [c2HealthySource] c2FailingSource 20 (by decide)⟩

/-- Claim C5 (amended): the donor score is
`min(1.0, 0.6·(matched/total) + 0.1·type-keyword-count)` and lies in [0, 1];
`find_matching_donors` keeps exactly the donors scoring STRICTLY above 0.3
(so a donor scoring exactly 0.3 is excluded), sorted descending by score and
truncated to the top 10; a donor sharing zero keywords with the query (and
no opportunity type given) scores 0 and is never returned. -/
theorem donor_matching_characterisation :
    (∀ (d : Donor) (kws : List String) (ot : Option String), kws ≠ [] →
        calculate_match_score d kws ot = specDonorScoreFormula d kws ot)
    ∧ (∀ (d : Donor) (kws : List String) (ot : Option String),
        0 ≤ calculate_match_score d kws ot ∧ calculate_match_score d kws ot ≤ 1)
    ∧ (∀ (donors : List Donor) (kws : List String) (ot : Option String),
        List.Pairwise (fun a b => b.2 ≤ a.2) (find_matching_donors donors kws ot)
        ∧ (find_matching_donors donors kws ot).length ≤ 10
        ∧ (∀ p ∈ find_matching_donors donors kws ot,
            p.2 = calculate_match_score p.1 kws ot ∧ 3/10 < p.2))
    ∧ (∀ (d : Donor) (kws : List String) (donors : List Donor),
        (∀ k ∈ kws, pyContains (donorText d) (pyLower k) = false) →
          calculate_match_score d kws none = 0
          ∧ ∀ p ∈ find_matching_donors donors kws none, p.1 ≠ d) := by
  have hbonus_nonneg : ∀ (d : Donor) (ot : Option String),
      (0:ℚ) ≤ (match ot with
        | none => (0:ℚ)
        | some t =>
            if t.isEmpty then 0
            else
              match type_keywords.lookup (pyLower t) with
              | some ws => ((ws.filter (fun w => pyContains (donorText d) w)).length : ℚ) * (1/10)
              | none => 0) := by
    intro d ot
    match ot with
    | none => exact le_refl 0
    | some t =>
        by_cases ht : t.isEmpty
        · simp [ht]
        · simp only [if_neg ht]
          match type_keywords.lookup (pyLower t) with
          | some ws => positivity
          | none => exact le_refl 0
  have hmem : ∀ (donors : List Donor) (kws : List String) (ot : Option String),
      ∀ p ∈ find_matching_donors donors kws ot,
        p.2 = calculate_match_score p.1 kws ot ∧ 3/10 < p.2 := by
    intro donors kws ot p hp
    have hp2 : p ∈ sortDescBy (fun p : Donor × ℚ => p.2)
        (donors.filterMap (fun d =>
          let score := calculate_match_score d kws ot
          if score > 3/10 then some (d, score) else none)) :=
      (List.take_sublist _ _).mem hp
    have hp3 := sortDescBy_mem (fun p : Donor × ℚ => p.2) |>.mp hp2
    rcases List.mem_filterMap.mp hp3 with ⟨d, _, hd⟩
    by_cases hgt : calculate_match_score d kws ot > 3/10
    · simp only [if_pos hgt] at hd
      cases hd
      exact ⟨rfl, hgt⟩
    · simp only [if_neg hgt] at hd
      exact Option.noConfusion hd
  refine ⟨?_, ?_, ?_, ?_⟩
  · intro d kws ot hk
    unfold calculate_match_score specDonorScoreFormula
    dsimp only
    rw [if_pos hk, min_comm]
    congr 1
    rcases ot with _ | t
    · dsimp only
      ring
    · dsimp only
      by_cases ht : t.isEmpty
      · rw [if_pos ht, if_pos ht]
        ring
      · rw [if_neg ht, if_neg ht]
        cases hlk : type_keywords.lookup (pyLower t) with
        | none => simp only [hlk]; ring
        | some ws => simp only [hlk]; ring
  · intro d kws ot
    unfold calculate_match_score
    constructor
    · refine le_min ?_ (by norm_num)
      have hb : (0:ℚ) ≤ (if kws ≠ [] then
          (((kws.filter (fun k => pyContains (donorText d) (pyLower k))).length : ℚ)
            / (kws.length : ℚ)) * (6/10) else 0) := by
        split_ifs
        · positivity
        · exact le_refl 0
      exact add_nonneg hb (hbonus_nonneg d ot)
    · exact min_le_right _ _
  · intro donors kws ot
    refine ⟨?_, ?_, hmem donors kws ot⟩
    · exact (sortDescBy_pairwise (fun p : Donor × ℚ => p.2) _).sublist (List.take_sublist _ _)
    · unfold find_matching_donors
      rw [List.length_take]
      exact min_le_left _ _
  · intro d kws donors hnone
    have hscore : calculate_match_score d kws none = 0 := by
      unfold calculate_match_score
      have hflt : kws.filter (fun k => pyContains (donorText d) (pyLower k)) = [] := by
        apply List.filter_eq_nil_iff.mpr
        intro k hk
        simp [hnone k hk]
      split_ifs with h
      · simp [hflt]
      · simp
    refine ⟨hscore, ?_⟩
    intro p hp hpd
    have hm := hmem donors kws none p hp
    rw [hpd, hscore] at hm
    have h2 := hm.2
    rw [hm.1] at h2
    norm_num at h2

def c5Keywords : List String := ["space", "education"]

def c5Boundary : Donor :=
  { name := "Orbital Horizons Fund"
    focus_areas := ["space exploration"]
    description := "" }

def c5NoShare : Donor :=
  { name := "Blue Reef Trust"
    focus_areas := ["ocean conservation"]
    description := "supports marine wildlife programs" }

/-- Counterexample for claim C5 as stated: a donor matching one of two
keywords scores exactly 0.3 — not below 0.3 — yet `find_matching_donors`
returns an empty list even though the registry has a single entry. -/
theorem donor_threshold_counterexample :
    calculate_match_score c5Boundary c5Keywords none = 3/10
    ∧ ¬ ((3:ℚ)/10 < 3/10)
    ∧ find_matching_donors [c5Boundary] c5Keywords none = [] := by
  have hflt : c5Keywords.filter
      (fun k => pyContains (donorText c5Boundary) (pyLower k)) = ["space"] := by decide
  have hscore : calculate_match_score c5Boundary c5Keywords none = 3/10 := by
    unfold calculate_match_score
    dsimp only
    rw [if_pos (by decide : c5Keywords ≠ [])]
    rw [hflt]
    have hlen : (c5Keywords.length : ℚ) = 2 := by norm_num [c5Keywords]
    rw [hlen]
    rw [min_eq_left (by norm_num)]
    norm_num
  refine ⟨hscore, by norm_num, ?_⟩
  unfold find_matching_donors
  have hnone : (if calculate_match_score c5Boundary c5Keywords none > 3/10
      then some (c5Boundary, calculate_match_score c5Boundary c5Keywords none)
      else none) = none := by
    rw [if_neg]
    rw [hscore]
    exact lt_irrefl _
  simp only [List.filterMap]
  rw [hnone]
  rfl

/-- Witness for claim C5 at concrete keyword lists and donors. -/
theorem donor_matching_characterisation_witness :
    (c5Keywords ≠ []
      ∧ calculate_match_score c5Boundary c5Keywords none
          = specDonorScoreFormula c5Boundary c5Keywords none)
    ∧ ((∀ k ∈ c5Keywords, pyContains (donorText c5NoShare) (pyLower k) = false)
      ∧ calculate_match_score c5NoShare c5Keywords none = 0
      ∧ ∀ p ∈ find_matching_donors [c5Boundary, c5NoShare] c5Keywords none,
          p.1 ≠ c5NoShare) :=
  ⟨⟨by decide, donor_matching_characterisation.1 c5Boundary c5Keywords none (by decide)⟩,
   by decide,
   (donor_matching_characterisation.2.2.2 c5NoShare c5Keywords [c5Boundary, c5NoShare]
     (by decide)).1,
   (donor_matching_characterisation.2.2.2 c5NoShare c5Keywords [c5Boundary, c5NoShare]
     (by decide)).2⟩

/-- The sort key of `_classify_opportunity`'s category ordering:
`category_scores.get(x, 0)` over the positive-score entries. -/
def categoryScoreKey (o : OppRecord) (c : String) : Nat :=
  ((((categoryScoresOf o).filter (fun p => p.2 > 0)).lookup c).getD 0)

def c8Demo : OppRecord :=
  { title := some "AI for space mission planning"
    description := some "We develop machine learning tools to analyze satellite imagery." }

def c8Wide : OppRecord :=
  { title := some "Multi domain research call"
    description := some
      "satellite robotics solar genomics nanotechnology cybersecurity sustainability" }

/-- Claim C8 (amended): each category is scored by the number of its
keywords occurring as case-insensitive substrings of title+description; the
stored `categories` list is the positive-score categories ordered by
descending score AND TRUNCATED TO THE TOP 5, and `primary_category` is the
top-scoring category or `"general"`; on the title "AI for space mission
planning" with a description containing "machine learning" and "satellite",
the categories are exactly `space_technology` (count 3) before `ai_ml`
(count 1). -/
theorem classified_categories_characterisation :
    (∀ o : OppRecord,
      (classify_opportunity o).categories = (sortedPositiveCategories o).take 5
      ∧ (classify_opportunity o).primary_category
          = some ((sortedPositiveCategories o).headD "general")
      ∧ List.Pairwise (fun a b => categoryScoreKey o b ≤ categoryScoreKey o a)
          (sortedPositiveCategories o)
      ∧ (∀ c, c ∈ sortedPositiveCategories o ↔
          ∃ n, (c, n) ∈ categoryScoresOf o ∧ 0 < n))
    ∧ ((classify_opportunity c8Demo).categories = ["space_technology", "ai_ml"]
      ∧ categoryScoreKey c8Demo "ai_ml" < categoryScoreKey c8Demo "space_technology") := by
  refine ⟨?_, by decide, by decide⟩
  intro o
  refine ⟨rfl, rfl, ?_, ?_⟩
  · unfold sortedPositiveCategories
    exact sortDescBy_pairwise _ _
  · intro c
    unfold sortedPositiveCategories
    rw [sortDescBy_mem]
    simp only [List.mem_map, List.mem_filter]
    constructor
    · rintro ⟨⟨c', n⟩, ⟨hmem, hpos⟩, rfl⟩
      exact ⟨n, hmem, by simpa using hpos⟩
    · rintro ⟨n, hmem, hpos⟩
      exact ⟨(c, n), ⟨hmem, by simpa using hpos⟩, rfl⟩

/-- Counterexample for claim C8 as stated: a candidate hitting seven
categories stores only the top five — `materials` and `climate` have
positive scores but are missing from `categories`. -/
theorem category_truncation_counterexample :
    sortedPositiveCategories c8Wide
      = ["defense", "space_technology", "ai_ml", "energy", "biotech", "materials", "climate"]
    ∧ (classify_opportunity c8Wide).categories
      = ["defense", "space_technology", "ai_ml", "energy", "biotech"]
    ∧ (classify_opportunity c8Wide).categories ≠ sortedPositiveCategories c8Wide := by
  exact ⟨by decide, by decide, by decide⟩

theorem substrB_true_of_prefix {needle s : List Char} {i : Nat} (hne : needle ≠ [])
    (h : needle <+: s.drop i) : substrB needle s = true := by
  rcases Nat.lt_or_ge i (s.length + 1) with hi | hi
  · exact List.any_eq_true.mpr
      ⟨i, List.mem_range.mpr hi, List.isPrefixOf_iff_prefix.mpr h⟩
  · exfalso
    have hdrop : s.drop i = [] := by
      apply List.drop_eq_nil_of_le
      omega
    rw [hdrop] at h
    rcases h with ⟨t, ht⟩
    cases needle with
    | nil => exact hne rfl
    | cons a l => simp at ht

theorem searchCapture_phrase_none {phrase pre sub : List Char} {s : List Char}
    (hdecomp : phrase = pre ++ sub) (hne : sub ≠ [])
    (h : substrB sub s = false) :
    searchCapture (phraseCaptureAt phrase) s = none := by
  apply List.findSome?_eq_none.mpr
  intro i _
  have hnp : ¬ (phrase.isPrefixOf (s.drop i) = true) := by
    intro hpre
    rcases List.isPrefixOf_iff_prefix.mp hpre with ⟨t, ht⟩
    have hsub : sub <+: s.drop (i + pre.length) := by
      rw [← List.drop_drop, ← ht, hdecomp, List.append_assoc, List.drop_left]
      exact ⟨t, rfl⟩
    have := substrB_true_of_prefix hne hsub
    rw [h] at this
    exact Bool.noConfusion this
  simp [phraseCaptureAt, hnp]

theorem searchCapture_closes_none {s : List Char}
    (h : substrB ("close".toList) s = false) :
    searchCapture closesCaptureAt s = none := by
  apply List.findSome?_eq_none.mpr
  intro i hi
  have hnp : ¬ (("close".toList).isPrefixOf (s.drop i) = true) := by
    intro hpre
    have := substrB_true_of_prefix (show ("close".toList) ≠ [] by decide)
      (List.isPrefixOf_iff_prefix.mp hpre)
    rw [h] at this
    exact Bool.noConfusion this
  unfold closesCaptureAt
  dsimp only
  rw [if_neg hnp]

theorem captureTail_inText {r c : List Char} (h : captureTail r = some c) : c <:+: r := by
  unfold captureTail at h
  dsimp only at h
  split_ifs at h with h1 h2
  · injection h with h
    subst h
    exact ((List.takeWhile_prefix _).isInfix).trans ((List.drop_suffix _ _).isInfix)
  · injection h with h
    subst h
    exact ((List.takeWhile_prefix _).isInfix).trans ((List.drop_suffix _ _).isInfix)

theorem phraseCaptureAt_inText {phrase s : List Char} {i : Nat} {c : List Char}
    (h : phraseCaptureAt phrase s i = some c) : c <:+: s := by
  unfold phraseCaptureAt at h
  dsimp only at h
  split_ifs at h with hp
  exact (captureTail_inText h).trans
    (((List.drop_suffix _ _).isInfix).trans ((List.drop_suffix _ _).isInfix))

theorem closesCaptureAt_inText {s : List Char} {i : Nat} {c : List Char}
    (h : closesCaptureAt s i = some c) : c <:+: s := by
  unfold closesCaptureAt at h
  dsimp only at h
  split_ifs at h with hp hs
  · have hsuff : ((s.drop i).drop 5) <:+ s :=
      (List.drop_suffix _ _).trans (List.drop_suffix _ _)
    cases hc1 : captureTail (((s.drop i).drop 5).drop 1) with
    | some c' =>
        rw [hc1] at h
        injection h with h
        subst h
        exact ((captureTail_inText hc1).trans ((List.drop_suffix _ _).isInfix)).trans
          hsuff.isInfix
    | none =>
        rw [hc1] at h
        exact (captureTail_inText h).trans hsuff.isInfix
  · exact (captureTail_inText h).trans
      (((List.drop_suffix _ _).trans (List.drop_suffix _ _)).isInfix)

theorem searchCapture_inText {capAt : List Char → Nat → Option (List Char)} {s c : List Char}
    (hstep : ∀ i c, capAt s i = some c → c <:+: s)
    (h : searchCapture capAt s = some c) : c <:+: s := by
  rcases List.exists_of_findSome?_eq_some h with ⟨i, _, hi⟩
  exact hstep i c hi

theorem pyStrip_inText (l : List Char) : pyStrip l <:+: l := by
  unfold pyStrip
  have h1 : (l.dropWhile isPyWS).reverse.dropWhile isPyWS <:+ (l.dropWhile isPyWS).reverse :=
    List.dropWhile_suffix _
  rcases h1 with ⟨u, hu⟩
  have h2 : ((l.dropWhile isPyWS).reverse.dropWhile isPyWS).reverse <+: l.dropWhile isPyWS := by
    refine ⟨u.reverse, ?_⟩
    have := congrArg List.reverse hu
    rw [List.reverse_append, List.reverse_reverse] at this
    exact this
  exact (h2.isInfix).trans ((List.dropWhile_suffix _).isInfix)

theorem searchDate_inText {patAt : List Char → Option Nat} {dt d : List Char}
    (h : searchDate patAt dt = some d) : d <:+: dt := by
  rcases List.exists_of_findSome?_eq_some h with ⟨i, _, hi⟩
  cases hp : patAt (dt.drop i) with
  | none => rw [hp] at hi; exact Option.noConfusion hi
  | some n =>
      rw [hp] at hi
      injection hi with hi
      subst hi
      exact ((List.take_prefix _ _).isInfix).trans ((List.drop_suffix _ _).isInfix)

def c9Text : String := "Application deadline: March 15, 2024 for all applicants"

/-- Claim C9 (amended): the extractor returns `none` whenever none of the
lowercased trigger phrases "deadline", "due", "close" (covering "closes"),
"submit by" occurs in the lowercased text ("application deadline" and
"proposal due" contain "deadline" and "due"); every returned deadline is a
fragment of the LOWERCASED text (a date token found in the capture after the
phrase, or the capture truncated to 100 characters); and the text
"Application deadline: March 15, 2024 for all applicants" yields
"march 15, 2024" — the lowercased date token. -/
theorem deadline_extraction_characterisation :
    (∀ t : String,
        substrB ("deadline".toList) (lowerChars t) = false →
        substrB ("due".toList) (lowerChars t) = false →
        substrB ("close".toList) (lowerChars t) = false →
        substrB ("submit by".toList) (lowerChars t) = false →
        extract_deadline_from_text t = none)
    ∧ (∀ (t s : String), extract_deadline_from_text t = some s →
        s.toList <:+: lowerChars t)
    ∧ extract_deadline_from_text c9Text = some "march 15, 2024" := by
  refine ⟨?_, ?_, by decide⟩
  · intro t h1 h2 h3 h4
    have e1 : searchCapture (phraseCaptureAt ("deadline".toList)) (lowerChars t) = none :=
      @searchCapture_phrase_none ("deadline".toList) [] ("deadline".toList) (lowerChars t)
        rfl (by decide) h1
    have e2 : searchCapture (phraseCaptureAt ("due".toList)) (lowerChars t) = none :=
      @searchCapture_phrase_none ("due".toList) [] ("due".toList) (lowerChars t)
        rfl (by decide) h2
    have e3 : searchCapture closesCaptureAt (lowerChars t) = none :=
      searchCapture_closes_none h3
    have e4 : searchCapture (phraseCaptureAt ("submit by".toList)) (lowerChars t) = none :=
      @searchCapture_phrase_none ("submit by".toList) [] ("submit by".toList) (lowerChars t)
        rfl (by decide) h4
    have e5 : searchCapture (phraseCaptureAt ("application deadline".toList)) (lowerChars t)
        = none :=
      @searchCapture_phrase_none ("application deadline".toList) ("application ".toList)
        ("deadline".toList) (lowerChars t) (by decide) (by decide) h1
    have e6 : searchCapture (phraseCaptureAt ("proposal due".toList)) (lowerChars t) = none :=
      @searchCapture_phrase_none ("proposal due".toList) ("proposal ".toList)
        ("due".toList) (lowerChars t) (by decide) (by decide) h2
    unfold extract_deadline_from_text deadlineCaptures
    simp [e3]
    exact ⟨e1, e2, e4, e5, e6⟩
  · intro t s h
    unfold extract_deadline_from_text at h
    rcases List.exists_of_findSome?_eq_some h with ⟨capAt, hmem, hcap⟩
    rcases Option.map_eq_some'.mp hcap with ⟨captured, hsearch, hbuild⟩
    dsimp only at hbuild
    have hcaptIn : captured <:+: lowerChars t := by
      have hphr : capAt ∈ deadlineCaptures := hmem
      unfold deadlineCaptures at hphr
      simp only [List.mem_cons, List.not_mem_nil, or_false] at hphr
      rcases hphr with rfl | rfl | rfl | rfl | rfl | rfl
      · exact searchCapture_inText (fun i c hc => phraseCaptureAt_inText hc) hsearch
      · exact searchCapture_inText (fun i c hc => phraseCaptureAt_inText hc) hsearch
      · exact searchCapture_inText (fun i c hc => closesCaptureAt_inText hc) hsearch
      · exact searchCapture_inText (fun i c hc => phraseCaptureAt_inText hc) hsearch
      · exact searchCapture_inText (fun i c hc => phraseCaptureAt_inText hc) hsearch
      · exact searchCapture_inText (fun i c hc => phraseCaptureAt_inText hc) hsearch
    have hstrip : pyStrip captured <:+: lowerChars t :=
      (pyStrip_inText captured).trans hcaptIn
    cases hdm : datePatterns.findSome? (fun patAt => searchDate patAt (pyStrip captured)) with
    | some d =>
        rw [hdm] at hbuild
        have : s.toList = d := by
          rw [← hbuild]
          rfl
        rw [this]
        rcases List.exists_of_findSome?_eq_some hdm with ⟨patAt, _, hpd⟩
        exact (searchDate_inText hpd).trans hstrip
    | none =>
        rw [hdm] at hbuild
        have : s.toList = (pyStrip captured).take 100 := by
          rw [← hbuild]
          rfl
        rw [this]
        exact ((List.take_prefix _ _).isInfix).trans hstrip

/-- Counterexample for claim C9 as stated: the extractor works on (and
returns slices of) the lowercased text, so the example text yields
"march 15, 2024" and not "March 15, 2024". -/
theorem deadline_lowercase_counterexample :
    extract_deadline_from_text c9Text = some "march 15, 2024"
    ∧ extract_deadline_from_text c9Text ≠ some "March 15, 2024" := by
  exact ⟨by decide, by decide⟩

/-- Witness for claim C9: a phrase-free text maps to `none`; the concrete
example's result is an infix of the lowercased text. -/
theorem deadline_extraction_characterisation_witness :
    (substrB ("deadline".toList) (lowerChars "hello world") = false
      ∧ substrB ("due".toList) (lowerChars "hello world") = false
      ∧ substrB ("close".toList) (lowerChars "hello world") = false
      ∧ substrB ("submit by".toList) (lowerChars "hello world") = false
      ∧ extract_deadline_from_text "hello world" = none)
    ∧ (extract_deadline_from_text c9Text = some "march 15, 2024"
      ∧ ("march 15, 2024" : String).toList <:+: lowerChars c9Text) :=
  ⟨⟨by decide, by decide, by decide, by decide,
    deadline_extraction_characterisation.1 "hello world"
      (by decide) (by decide) (by decide) (by decide)⟩,
   deadline_extraction_characterisation.2.2,
   deadline_extraction_characterisation.2.1 c9Text "march 15, 2024"
     deadline_extraction_characterisation.2.2⟩

theorem idf_pos (docs : List (List String)) (t : String) : 0 < idf docs t := by
  unfold idf
  have hdf : ((docs.filter (fun d => d.contains t)).length : ℝ) ≤ (docs.length : ℝ) := by
    exact_mod_cast List.length_filter_le _ _
  have hpos : (0:ℝ) < 1 + ((docs.filter (fun d => d.contains t)).length : ℝ) := by positivity
  have harg : 1 ≤ (1 + (docs.length : ℝ))
      / (1 + ((docs.filter (fun d => d.contains t)).length : ℝ)) := by
    rw [le_div_iff hpos]
    linarith
  have := Real.log_nonneg harg
  linarith

theorem tfidfWeight_nonneg (docs : List (List String)) (d : List String) (t : String) :
    0 ≤ tfidfWeight docs d t :=
  mul_nonneg (Nat.cast_nonneg _) (le_of_lt (idf_pos docs t))

theorem matchProfile_length (p : ProfileData) (opps : List OppRecord) (topN : Nat)
    (res : List (OppRecord × ℝ))
    (h : match_opportunities_to_profile p opps topN = Except.ok res) :
    res.length = min topN opps.length := by
  unfold match_opportunities_to_profile at h
  by_cases he : opps.isEmpty
  · rw [if_pos he] at h
    injection h with h
    have : opps = [] := List.isEmpty_iff.mp he
    simp [this, ← h]
  · rw [if_neg he] at h
    dsimp only at h
    by_cases hv : (((create_profile_text p :: opps.map oppText).map tokenize).flatten).isEmpty
    · rw [if_pos hv] at h
      exact Except.noConfusion h
    · rw [if_neg hv] at h
      injection h with h
      rw [← h, List.length_take, sortDescBy_length, List.length_map]

theorem matchProposal_length (nlpKw : String → List String) (text : String)
    (opps : List OppRecord) (topN : Nat) (res : List (OppRecord × ℝ))
    (h : match_proposal_to_opportunities nlpKw text opps topN = Except.ok res) :
    res.length = min topN opps.length := by
  unfold match_proposal_to_opportunities at h
  by_cases he : opps.isEmpty
  · rw [if_pos he] at h
    injection h with h
    have : opps = [] := List.isEmpty_iff.mp he
    simp [this, ← h]
  · rw [if_neg he] at h
    dsimp only at h
    by_cases hv : opps.any (fun o =>
        ([tokenize text, tokenize (oppTextTD o)].flatten).isEmpty)
    · rw [if_pos hv] at h
      exact Except.noConfusion h
    · rw [if_neg hv] at h
      injection h with h
      rw [← h, List.length_take, sortDescBy_length, List.length_map]

/-- Claim C7 (amended): an empty opportunity corpus yields an empty result
list from both matchers and neither raises; but an empty query text does NOT
yield an empty result — whenever a matcher returns normally it returns
`min(top_n, corpus size)` scored opportunities whatever the query text, and
when the fitted corpus is entirely token-free (an empty query against
token-free opportunity texts) the matcher instead propagates scikit-learn's
empty-vocabulary `ValueError`. -/
theorem matching_empty_input_characterisation :
    (∀ (p : ProfileData) (topN : Nat),
        match_opportunities_to_profile p [] topN = Except.ok [])
    ∧ (∀ (nlpKw : String → List String) (text : String) (topN : Nat),
        match_proposal_to_opportunities nlpKw text [] topN = Except.ok [])
    ∧ (∀ (p : ProfileData) (opps : List OppRecord) (topN : Nat) (res : List (OppRecord × ℝ)),
        match_opportunities_to_profile p opps topN = Except.ok res →
          res.length = min topN opps.length)
    ∧ (∀ (nlpKw : String → List String) (text : String) (opps : List OppRecord)
        (topN : Nat) (res : List (OppRecord × ℝ)),
        match_proposal_to_opportunities nlpKw text opps topN = Except.ok res →
          res.length = min topN opps.length)
    ∧ (∀ (p : ProfileData) (opps : List OppRecord) (topN : Nat), opps ≠ [] →
        (match_opportunities_to_profile p opps topN = Except.error emptyVocabularyError
          ↔ ((create_profile_text p :: opps.map oppText).map tokenize).flatten = [])) := by
  refine ⟨?_, ?_, matchProfile_length, matchProposal_length, ?_⟩
  · intro p topN
    rfl
  · intro nlpKw text topN
    rfl
  · intro p opps topN h
    unfold match_opportunities_to_profile
    have hc : ¬ (opps.isEmpty = true) := by
      simp [List.isEmpty_iff, h]
    rw [if_neg hc]
    dsimp only
    by_cases hv : (((create_profile_text p :: opps.map oppText).map tokenize).flatten).isEmpty
    · rw [if_pos hv]
      constructor
      · intro _
        exact List.isEmpty_iff.mp hv
      · intro _
        rfl
    · rw [if_neg hv]
      constructor
      · intro hcontr
        exact Except.noConfusion hcontr
      · intro hnil
        exact absurd (List.isEmpty_iff.mpr hnil) hv

def c7Opp : OppRecord :=
  { title := some "Satellite Data Grant"
    description := some "Funding for satellite data analysis projects"
    relevance_score := some (1/2) }

def c7BangOpp : OppRecord :=
  { title := some "A"
    description := some "!!" }

/-- Counterexample for claim C7 as stated: with an empty profile — whose
query text is the empty string — the matcher returns one scored opportunity
(not an empty list) when the opportunity text has tokens, and raises the
empty-vocabulary `ValueError` (instead of returning an empty list without
error) when it does not. -/
theorem empty_query_counterexample :
    create_profile_text {} = ""
    ∧ (∃ res, match_opportunities_to_profile {} [c7Opp] 20 = Except.ok res
        ∧ res.length = 1 ∧ res ≠ [])
    ∧ match_opportunities_to_profile {} [c7BangOpp] 20
        = Except.error emptyVocabularyError := by
  have hok : ∃ res, match_opportunities_to_profile {} [c7Opp] 20 = Except.ok res := by
    unfold match_opportunities_to_profile
    rw [if_neg (by decide)]
    dsimp only
    rw [if_neg (by decide)]
    exact ⟨_, rfl⟩
  rcases hok with ⟨res, hres⟩
  have hlen : res.length = 1 := by
    rw [matchProfile_length {} [c7Opp] 20 res hres]
    rfl
  refine ⟨rfl, ⟨res, hres, hlen, ?_⟩, ?_⟩
  · intro hc
    rw [hc] at hlen
    simp at hlen
  · unfold match_opportunities_to_profile
    rw [if_neg (by decide)]
    dsimp only
    rw [if_pos (by decide)]

/-- Witness for claim C7: the length law applied at a concrete corpus on
which the profile matcher returns normally. -/
theorem matching_empty_input_characterisation_witness :
    ∃ res, match_opportunities_to_profile {} [c7Opp] 5 = Except.ok res
      ∧ res.length = min 5 [c7Opp].length := by
  have hok : ∃ res, match_opportunities_to_profile {} [c7Opp] 5 = Except.ok res := by
    unfold match_opportunities_to_profile
    rw [if_neg (by decide)]
    dsimp only
    rw [if_neg (by decide)]
    exact ⟨_, rfl⟩
  rcases hok with ⟨res, hres⟩
  exact ⟨res, hres, matching_empty_input_characterisation.2.2.1 {} [c7Opp] 5 res hres⟩

/-! ### Claim C6 -/

/-- Modelled from the spec: each opportunity paired with
`0.7 × similarity + 0.3 × relevance_score` for the TF-IDF fit on the profile
text plus all opportunity texts. -/
noncomputable def specProfileScoredList (p : ProfileData) (opps : List OppRecord) :
    List (OppRecord × ℝ) :=
  let profile_text := create_profile_text p
  let docs := (profile_text :: opps.map oppText).map tokenize
  opps.map (fun o =>
    (o, 0.7 * cosineSim docs (tokenize profile_text) (tokenize (oppText o))
      + 0.3 * ((o.relevance_score.getD 0 : ℚ) : ℝ)))

def c6Profile : ProfileData :=
  { skills := some (ProfileVal.str "machine learning, satellite data") }

def c6MlOpp : OppRecord :=
  { title := some "Machine learning for satellite data analysis"
    description := some
      "Funding opportunity applying machine learning methods satellite imagery processing"
    relevance_score := some (1/2) }

def c6AgriOpp : OppRecord :=
  { title := some "Agricultural subsidies support program"
    description := some
      "Grant program supporting european farmers rural agricultural subsidies payments"
    relevance_score := some (1/2) }

def c6p : List String := tokenize (create_profile_text c6Profile)

def c6m : List String := tokenize (oppText c6MlOpp)

def c6a : List String := tokenize (oppText c6AgriOpp)

def c6docs : List (List String) := [c6p, c6m, c6a]

set_option maxRecDepth 100000 in
theorem c6_dot_agri : dotProd c6docs c6p c6a = 0 := by
  unfold dotProd
  apply List.sum_eq_zero
  intro x hx
  rcases List.mem_map.mp hx with ⟨t, htv, rfl⟩
  have hall : ∀ t ∈ vocabulary c6docs, c6p.count t = 0 ∨ c6a.count t = 0 := by decide
  rcases hall t htv with h | h
  · unfold tfidfWeight
    rw [h]
    push_cast
    ring
  · unfold tfidfWeight
    rw [h]
    push_cast
    ring

set_option maxRecDepth 100000 in
theorem c6_weight_p_machine_pos : 0 < tfidfWeight c6docs c6p "machine" := by
  unfold tfidfWeight
  apply mul_pos ?_ (idf_pos _ _)
  have h : c6p.count "machine" = 1 := by decide
  rw [h]
  norm_num

set_option maxRecDepth 100000 in
theorem c6_weight_m_machine_pos : 0 < tfidfWeight c6docs c6m "machine" := by
  unfold tfidfWeight
  apply mul_pos ?_ (idf_pos _ _)
  have h : c6m.count "machine" = 2 := by decide
  rw [h]
  norm_num

set_option maxRecDepth 100000 in
theorem c6_machine_mem_vocab : "machine" ∈ vocabulary c6docs := by decide

theorem c6_dot_ml_pos : 0 < dotProd c6docs c6p c6m := by
  unfold dotProd
  have hnn : ∀ x ∈ (vocabulary c6docs).map
      (fun t => tfidfWeight c6docs c6p t * tfidfWeight c6docs c6m t), 0 ≤ x := by
    intro x hx
    rcases List.mem_map.mp hx with ⟨t, _, rfl⟩
    exact mul_nonneg (tfidfWeight_nonneg _ _ _) (tfidfWeight_nonneg _ _ _)
  have hmem : tfidfWeight c6docs c6p "machine" * tfidfWeight c6docs c6m "machine"
      ∈ (vocabulary c6docs).map
        (fun t => tfidfWeight c6docs c6p t * tfidfWeight c6docs c6m t) :=
    List.mem_map.mpr ⟨"machine", c6_machine_mem_vocab, rfl⟩
  exact lt_of_lt_of_le (mul_pos c6_weight_p_machine_pos c6_weight_m_machine_pos)
    (List.single_le_sum hnn _ hmem)

theorem c6_norm_pos_of_weight_pos {d : List String}
    (hw : 0 < tfidfWeight c6docs d "machine") : 0 < normV c6docs d := by
  unfold normV
  rw [Real.sqrt_pos]
  have hnn : ∀ x ∈ (vocabulary c6docs).map (fun t => (tfidfWeight c6docs d t) ^ 2), 0 ≤ x := by
    intro x hx
    rcases List.mem_map.mp hx with ⟨t, _, rfl⟩
    positivity
  have hmem : (tfidfWeight c6docs d "machine") ^ 2
      ∈ (vocabulary c6docs).map (fun t => (tfidfWeight c6docs d t) ^ 2) :=
    List.mem_map.mpr ⟨"machine", c6_machine_mem_vocab, rfl⟩
  exact lt_of_lt_of_le (pow_pos hw 2) (List.single_le_sum hnn _ hmem)

theorem c6_sim_agri_zero : cosineSim c6docs c6p c6a = 0 := by
  unfold cosineSim
  rw [c6_dot_agri, zero_div]

theorem c6_sim_ml_pos : 0 < cosineSim c6docs c6p c6m := by
  have h1 := c6_norm_pos_of_weight_pos c6_weight_p_machine_pos
  have h2 := c6_norm_pos_of_weight_pos c6_weight_m_machine_pos
  unfold cosineSim
  rw [if_neg (ne_of_gt h1), if_neg (ne_of_gt h2)]
  exact div_pos c6_dot_ml_pos (mul_pos h1 h2)

set_option maxRecDepth 200000 in
/-- Claim C6: for a non-empty corpus whose fitted texts are not all
token-free (otherwise the vectorizer raises instead of returning), the
profile matcher returns the opportunities scored by `0.7 × TF-IDF cosine
similarity + 0.3 × relevance`, sorted descending by combined score and
truncated to the top N; every normally returned result is sorted descending;
and for the profile "machine learning, satellite data", an opportunity about
machine learning for satellites ranks strictly higher than one about
agricultural subsidies. -/
theorem profile_matching_characterisation :
    (∀ (p : ProfileData) (opps : List OppRecord) (topN : Nat), opps ≠ [] →
        ((create_profile_text p :: opps.map oppText).map tokenize).flatten ≠ [] →
        match_opportunities_to_profile p opps topN
          = Except.ok ((sortDescBy (fun q : OppRecord × ℝ => q.2)
              (specProfileScoredList p opps)).take topN))
    ∧ (∀ (p : ProfileData) (opps : List OppRecord) (topN : Nat) (res : List (OppRecord × ℝ)),
        match_opportunities_to_profile p opps topN = Except.ok res →
          List.Pairwise (fun a b : OppRecord × ℝ => b.2 ≤ a.2) res)
    ∧ (∃ s1 s2 : ℝ,
        match_opportunities_to_profile c6Profile [c6MlOpp, c6AgriOpp] 20
          = Except.ok [(c6MlOpp, s1), (c6AgriOpp, s2)] ∧ s2 < s1) := by
  refine ⟨?_, ?_, ?_⟩
  · intro p opps topN h hvoc
    unfold match_opportunities_to_profile specProfileScoredList
    have hc : ¬ (opps.isEmpty = true) := by
      simp [List.isEmpty_iff, h]
    rw [if_neg hc]
    dsimp only
    have hv : ¬ ((((create_profile_text p :: opps.map oppText).map tokenize).flatten).isEmpty
        = true) := fun hh => hvoc (List.isEmpty_iff.mp hh)
    rw [if_neg hv]
    congr 1
    congr 1
    congr 1
    apply List.map_congr_left
    intro o _
    refine Prod.ext rfl ?_
    dsimp only
    ring
  · intro p opps topN res hres
    unfold match_opportunities_to_profile at hres
    by_cases hc : opps.isEmpty
    · rw [if_pos hc] at hres
      injection hres with hres
      rw [← hres]
      exact List.Pairwise.nil
    · rw [if_neg hc] at hres
      dsimp only at hres
      by_cases hv : (((create_profile_text p :: opps.map oppText).map tokenize).flatten).isEmpty
      · rw [if_pos hv] at hres
        exact Except.noConfusion hres
      · rw [if_neg hv] at hres
        injection hres with hres
        rw [← hres]
        exact (sortDescBy_pairwise _ _).sublist (List.take_sublist _ _)
  · set s1 : ℝ := cosineSim c6docs c6p c6m * 0.7
      + ((c6MlOpp.relevance_score.getD 0 : ℚ) : ℝ) * 0.3 with hs1
    set s2 : ℝ := cosineSim c6docs c6p c6a * 0.7
      + ((c6AgriOpp.relevance_score.getD 0 : ℚ) : ℝ) * 0.3 with hs2
    have hlt : s2 < s1 := by
      have hrel : ((c6MlOpp.relevance_score.getD 0 : ℚ) : ℝ)
          = ((c6AgriOpp.relevance_score.getD 0 : ℚ) : ℝ) := rfl
      rw [hs1, hs2, c6_sim_agri_zero, hrel]
      have h07 : 0 < cosineSim c6docs c6p c6m * 0.7 :=
        mul_pos c6_sim_ml_pos (by norm_num)
      linarith
    refine ⟨s1, s2, ?_, hlt⟩
    have hunfold : match_opportunities_to_profile c6Profile [c6MlOpp, c6AgriOpp] 20
        = Except.ok ((sortDescBy (fun q : OppRecord × ℝ => q.2)
            [(c6MlOpp, s1), (c6AgriOpp, s2)]).take 20) := by
      unfold match_opportunities_to_profile
      rw [if_neg (by decide)]
      dsimp only
      rw [if_neg (by decide)]
      rfl
    rw [hunfold]
    have hins : sortDescBy (fun q : OppRecord × ℝ => q.2)
        [(c6MlOpp, s1), (c6AgriOpp, s2)] = [(c6MlOpp, s1), (c6AgriOpp, s2)] := by
      show insertDescBy _ (c6MlOpp, s1)
        (insertDescBy _ (c6AgriOpp, s2) (sortDescBy _ [])) = _
      rw [sortDescBy]
      rw [insertDescBy]
      rw [insertDescBy, if_pos (le_of_lt hlt)]
    rw [hins]
    rfl

set_option maxRecDepth 200000 in
/-- Witness for claim C6: the general characterisation applied to the
concrete two-opportunity corpus, whose fitted texts carry tokens. -/
theorem profile_matching_characterisation_witness :
    (([c6MlOpp, c6AgriOpp] : List OppRecord) ≠ []
      ∧ ((create_profile_text c6Profile
          :: [c6MlOpp, c6AgriOpp].map oppText).map tokenize).flatten ≠ [])
    ∧ match_opportunities_to_profile c6Profile [c6MlOpp, c6AgriOpp] 20
        = Except.ok ((sortDescBy (fun q : OppRecord × ℝ => q.2)
            (specProfileScoredList c6Profile [c6MlOpp, c6AgriOpp])).take 20) :=
  ⟨⟨by simp, by decide⟩,
   profile_matching_characterisation.1 c6Profile [c6MlOpp, c6AgriOpp] 20
     (by simp) (by decide)⟩

end ProposalAI
